import Mathlib

/-!
Verification development for the FLIP7-DEALERBOT firmware
(Flip7DealerMain.ino and its headers).

The definitions below are a shallow embedding of the firmware's data
model and of the functions the properties under scrutiny talk about.
Machine integers are modelled as Nat (resp. Int for the signed int8
variables), with an explicit `% 256` (uint8) or 32-bit wraparound
subtraction where the C code can overflow.  Hardware writes (motor pins,
servo, display segments) have no observable effect on the modelled state
and are dropped; every flag and counter write of the translated
functions is kept.
-/

/-! ### Color classifier state (colorRead, part_001 lines 1457-1521)

The source keeps, in globals/statics:
  uint8_t colorBuffer[debounceCount] = {0}  (debounceCount = 3),
  static uint8_t bufferIndex, static uint8_t stableColorCount,
  uint8_t stableColor = 0, uint8_t activeColor = 0.
The three buffer cells are modelled as fields b0 b1 b2. -/

structure ColorState where
  b0 : Nat
  b1 : Nat
  b2 : Nat
  bufferIndex : Fin 3
  stableColorCount : Nat
  stableColor : Nat
  activeColor : Nat
  deriving DecidableEq, Repr

/-- Boot values of the classifier state (all globals zero-initialised). -/
def initColorState : ColorState :=
  { b0 := 0, b1 := 0, b2 := 0, bufferIndex := 0,
    stableColorCount := 0, stableColor := 0, activeColor := 0 }

/-- Read of buffer cell i (colorBuffer[i]). -/
def bufAt (s : ColorState) (i : Fin 3) : Nat :=
  match i with
  | 0 => s.b0
  | 1 => s.b1
  | 2 => s.b2

/-- colorBuffer[bufferIndex] = closestColor (line 1496). -/
def bufWrite (s : ColorState) (c : Nat) : ColorState :=
  match s.bufferIndex with
  | 0 => { s with b0 := c }
  | 1 => { s with b1 := c }
  | 2 => { s with b2 := c }

/-- Debounce part of colorRead (lines 1496-1521), fed with the raw
nearest-centroid classification closestColor: store it in the circular
buffer, advance bufferIndex mod debounceCount (Fin 3 addition), check
whether all debounceCount buffered entries agree (the source's loop over
the 3 cells), update stableColor and the uint8 stability counter, and
copy stableColor into activeColor once the counter reaches
debounceCount. -/
def colorReadStep (s : ColorState) (closestColor : Nat) : ColorState :=
  let s1 := bufWrite s closestColor
  let s2 := { s1 with bufferIndex := s.bufferIndex + 1 }
  let isStable := (s2.b0 == closestColor) && (s2.b1 == closestColor) && (s2.b2 == closestColor)
  let s3 :=
    if isStable then
      { s2 with stableColor := closestColor,
                stableColorCount := (s2.stableColorCount + 1) % 256 }
    else
      { s2 with stableColorCount := 0 }
  if 3 ≤ s3.stableColorCount then { s3 with activeColor := s3.stableColor } else s3

/-- Iterated colorRead over a list of raw classifications. -/
def runColor (s : ColorState) (cs : List Nat) : ColorState :=
  cs.foldl colorReadStep s

/-! ### Nearest-centroid search (colorRead, lines 1480-1494) and C10 -/

/-- Number of calibrated identities: TOTAL_COLORS = NUM_PLAYER_COLORS + 1
with NUM_PLAYER_COLORS = 8 (ColorNames.h). -/
abbrev TOTAL_COLORS : Nat := 9

/-- RGBColor record (Definitions.h): four uint16 fields. -/
structure RGBColor where
  r : Nat
  g : Nat
  b : Nat
  avgC : Nat
  deriving DecidableEq, Repr

/-- Argmin loop of colorRead (lines 1487-1494): closestColor starts at 0
with minDistance = distances[0], then indices 1..TOTAL_COLORS-1 replace
it on strictly smaller distance.  The machine float distances are
modelled as exact rationals; the selected index does not depend on the
arithmetic domain's precision beyond the comparisons. -/
def closestColorOf (dist : Fin TOTAL_COLORS → ℚ) : Nat :=
  ((List.finRange TOTAL_COLORS).tail.foldl
    (fun acc i => if dist i < acc.2 then ((i : Nat), dist i) else acc)
    (0, dist 0)).1

/-- Squared-distance table of colorRead (lines 1476-1485): r,g,b are
normalised to proportions of their sum on a 0-255 scale and compared to
each calibrated centroid.  Machine float arithmetic modelled over ℚ
(in ℚ, division by a zero sum yields 0 where the machine float would be
NaN; no claim below depends on the distance values themselves). -/
def colorDistances (r g b : ℚ) (colors : Fin TOTAL_COLORS → RGBColor) :
    Fin TOTAL_COLORS → ℚ :=
  fun i =>
    let total := r + g + b
    let nr := r / total * 255
    let ng := g / total * 255
    let nb := b / total * 255
    (nr - (colors i).r) * (nr - (colors i).r) +
      (ng - (colors i).g) * (ng - (colors i).g) +
      (nb - (colors i).b) * (nb - (colors i).b)

/-- Full colorRead on one raw sensor sample: nearest-centroid
classification followed by the debounce update.  (The concurrent
brightness-spike update of flags2.baselineExceeded is modelled
separately by checkForColorSpike, which touches disjoint state.) -/
def colorRead (s : ColorState) (r g b : ℚ)
    (colors : Fin TOTAL_COLORS → RGBColor) : ColorState :=
  colorReadStep s (closestColorOf (colorDistances r g b colors))

/-! ### Brightness-spike detector (checkForColorSpike, lines 1523-1532)

The raise condition compares float(c) against float(blackBaseline)*1.6.
The comparison is modelled exactly over the integers as
10*c versus 16*blackBaseline; at the baseline value 40 used by the
claimed scenario the machine product is exactly the float 64.0 (both
with 32-bit and 64-bit doubles), so the model and the machine agree
there. -/
def checkForColorSpike (adjustInProgress : Bool) (baselineExceeded : Bool)
    (c blackBaseline : Nat) : Bool :=
  if !baselineExceeded && !adjustInProgress && decide (16 * blackBaseline ≤ 10 * c) then
    true
  else if baselineExceeded && decide (10 * c < 16 * blackBaseline) then
    false
  else
    baselineExceeded

/-- Feed a brightness sequence through checkForColorSpike, returning the
spike flag after each sample (flags2.baselineExceeded persists between
calls). -/
def runSpike (adjustInProgress : Bool) (blackBaseline : Nat) :
    Bool → List Nat → List Bool
  | _, [] => []
  | ex, c :: cs =>
      let ex' := checkForColorSpike adjustInProgress ex c blackBaseline
      ex' :: runSpike adjustInProgress blackBaseline ex' cs

/-! ### Runs of identical raw classifications (for the debounce claims) -/

/-- Decides whether a list contains 3 consecutive equal entries. -/
def hasRun3 : List Nat → Bool
  | a :: b :: c :: t => (a == b && b == c) || hasRun3 (b :: c :: t)
  | _ => false

/-! ### Helper lemmas about one colorRead debounce step -/

theorem b0_ite (P : Prop) [Decidable P] (x y : ColorState) :
    (if P then x else y).b0 = if P then x.b0 else y.b0 := apply_ite ColorState.b0 P x y

theorem b1_ite (P : Prop) [Decidable P] (x y : ColorState) :
    (if P then x else y).b1 = if P then x.b1 else y.b1 := apply_ite ColorState.b1 P x y

theorem b2_ite (P : Prop) [Decidable P] (x y : ColorState) :
    (if P then x else y).b2 = if P then x.b2 else y.b2 := apply_ite ColorState.b2 P x y

theorem bufferIndex_ite (P : Prop) [Decidable P] (x y : ColorState) :
    (if P then x else y).bufferIndex = if P then x.bufferIndex else y.bufferIndex :=
  apply_ite ColorState.bufferIndex P x y

theorem count_ite (P : Prop) [Decidable P] (x y : ColorState) :
    (if P then x else y).stableColorCount = if P then x.stableColorCount else y.stableColorCount :=
  apply_ite ColorState.stableColorCount P x y

theorem stable_ite (P : Prop) [Decidable P] (x y : ColorState) :
    (if P then x else y).stableColor = if P then x.stableColor else y.stableColor :=
  apply_ite ColorState.stableColor P x y

theorem active_ite (P : Prop) [Decidable P] (x y : ColorState) :
    (if P then x else y).activeColor = if P then x.activeColor else y.activeColor :=
  apply_ite ColorState.activeColor P x y

/-- One step writes the classification at the current buffer slot and
leaves the other two slots alone. -/
theorem bufAt_colorReadStep (s : ColorState) (c : Nat) (j : Fin 3) :
    bufAt (colorReadStep s c) j = if j = s.bufferIndex then c else bufAt s j := by
  rcases s with ⟨b0, b1, b2, i, cnt, st, ac⟩
  fin_cases i <;> fin_cases j <;>
    simp [colorReadStep, bufWrite, bufAt, b0_ite, b1_ite, b2_ite]

theorem bufferIndex_colorReadStep (s : ColorState) (c : Nat) :
    (colorReadStep s c).bufferIndex = s.bufferIndex + 1 := by
  rcases s with ⟨b0, b1, b2, i, cnt, st, ac⟩
  fin_cases i <;> simp [colorReadStep, bufWrite, bufferIndex_ite]

/-- All three buffer cells hold the classification c. -/
def AllC (s : ColorState) (c : Nat) : Prop := s.b0 = c ∧ s.b1 = c ∧ s.b2 = c

instance (s : ColorState) (c : Nat) : Decidable (AllC s c) := by
  unfold AllC; infer_instance

/-- Characterisation of one debounce step: the stability test is exactly
that the post-write buffer holds c everywhere; in the stable case the
uint8 counter increments (mod 256), stableColor becomes c, and
activeColor becomes c exactly when the new counter has reached
debounceCount; in the unstable case the counter resets and stableColor
and activeColor are untouched. -/
theorem colorReadStep_char (s : ColorState) (c : Nat) :
    colorReadStep s c =
      if AllC (bufWrite s c) c then
        { bufWrite s c with
            bufferIndex := s.bufferIndex + 1,
            stableColor := c,
            stableColorCount := (s.stableColorCount + 1) % 256,
            activeColor := if 3 ≤ (s.stableColorCount + 1) % 256 then c
                           else s.activeColor }
      else
        { bufWrite s c with
            bufferIndex := s.bufferIndex + 1,
            stableColorCount := 0 } := by
  rcases s with ⟨b0, b1, b2, i, cnt, st, ac⟩
  fin_cases i <;>
    · simp only [colorReadStep, bufWrite, AllC, Bool.and_eq_true, beq_iff_eq]
      split_ifs <;> simp_all

theorem bufWrite_activeColor (s : ColorState) (c : Nat) :
    (bufWrite s c).activeColor = s.activeColor := by
  rcases s with ⟨b0, b1, b2, i, cnt, st, ac⟩
  fin_cases i <;> rfl

theorem bufWrite_stableColor (s : ColorState) (c : Nat) :
    (bufWrite s c).stableColor = s.stableColor := by
  rcases s with ⟨b0, b1, b2, i, cnt, st, ac⟩
  fin_cases i <;> rfl

theorem bufWrite_count (s : ColorState) (c : Nat) :
    (bufWrite s c).stableColorCount = s.stableColorCount := by
  rcases s with ⟨b0, b1, b2, i, cnt, st, ac⟩
  fin_cases i <;> rfl

theorem allC_iff_bufAt (s : ColorState) (c : Nat) :
    AllC s c ↔ ∀ j : Fin 3, bufAt s j = c := by
  constructor
  · rintro ⟨h0, h1, h2⟩ j
    fin_cases j <;> simpa [bufAt]
  · intro h
    exact ⟨h 0, h 1, h 2⟩

theorem fin3_cover (i j : Fin 3) : j = i ∨ j = i + 1 ∨ j = i + 2 := by
  fin_cases i <;> fin_cases j <;> decide

/-- After three consecutive pushes of the same classification, the whole
debounce buffer holds it. -/
theorem allC_three_steps (s : ColorState) (c : Nat) :
    AllC (colorReadStep (colorReadStep (colorReadStep s c) c) c) c := by
  rw [allC_iff_bufAt]
  intro j
  have h1 := bufferIndex_colorReadStep s c
  have h2 := bufferIndex_colorReadStep (colorReadStep s c) c
  rcases fin3_cover s.bufferIndex j with hj | hj | hj
  · rw [bufAt_colorReadStep, bufAt_colorReadStep, bufAt_colorReadStep]
    by_cases hb : j = (colorReadStep (colorReadStep s c) c).bufferIndex
    · simp [hb]
    · rw [if_neg hb]
      by_cases hb1 : j = (colorReadStep s c).bufferIndex
      · simp [hb1]
      · rw [if_neg hb1, if_pos hj]
  · rw [bufAt_colorReadStep, bufAt_colorReadStep]
    by_cases hb : j = (colorReadStep (colorReadStep s c) c).bufferIndex
    · simp [hb]
    · rw [if_neg hb, h1, if_pos hj]
  · rw [bufAt_colorReadStep, h2, h1]
    have h12 : j = s.bufferIndex + 1 + 1 := by
      rw [hj, add_assoc]
      congr 1
    rw [if_pos h12]

/-- A step keeps an all-c buffer all-c. -/
theorem allC_step (s : ColorState) (c : Nat) (h : AllC s c) :
    AllC (colorReadStep s c) c := by
  rw [allC_iff_bufAt] at h ⊢
  intro j
  rw [bufAt_colorReadStep]
  by_cases hb : j = s.bufferIndex
  · simp [hb]
  · rw [if_neg hb]; exact h j

/-- The uint8 stability counter stays in range. -/
theorem count_colorReadStep_lt (s : ColorState) (c : Nat) :
    (colorReadStep s c).stableColorCount < 256 := by
  rw [colorReadStep_char]
  split <;> simp <;> omega

/-- Each step either writes the pushed classification into activeColor
or leaves activeColor alone. -/
theorem activeColor_colorReadStep_cases (s : ColorState) (c : Nat) :
    (colorReadStep s c).activeColor = c ∨
      (colorReadStep s c).activeColor = s.activeColor := by
  rw [colorReadStep_char]
  split
  · dsimp only
    split
    · exact Or.inl rfl
    · exact Or.inr rfl
  · exact Or.inr (bufWrite_activeColor s c)

/-- If the counter is at debounceCount or beyond right after a step,
that step wrote the pushed classification into activeColor. -/
theorem activeColor_of_count_ge (s : ColorState) (c : Nat)
    (h : 3 ≤ (colorReadStep s c).stableColorCount) :
    (colorReadStep s c).activeColor = c := by
  rw [colorReadStep_char] at h ⊢
  by_cases hb : AllC (bufWrite s c) c
  · rw [if_pos hb] at h ⊢
    dsimp only at h ⊢
    rw [if_pos h]
  · rw [if_neg hb] at h
    dsimp only at h
    omega

/-- Stable-step bookkeeping: when the buffer already holds c everywhere,
the counter increments mod 256 and activeColor is either overwritten
with c or untouched. -/
theorem colorReadStep_allC_count (s : ColorState) (c : Nat) (h : AllC s c) :
    (colorReadStep s c).stableColorCount = (s.stableColorCount + 1) % 256 ∧
      ((colorReadStep s c).activeColor = c ∨
        (colorReadStep s c).activeColor = s.activeColor) := by
  have hb : AllC (bufWrite s c) c := by
    rcases h with ⟨h0, h1, h2⟩
    rcases s with ⟨b0, b1, b2, i, cnt, st, ac⟩
    fin_cases i <;> simp_all [bufWrite, AllC]
  rw [colorReadStep_char, if_pos hb]
  constructor
  · rfl
  · simp only
    split
    · exact Or.inl rfl
    · exact Or.inr rfl

/-- If the buffer holds c everywhere right after a step, that step took
the stable branch: the counter incremented (mod 256) and activeColor was
either overwritten with c or untouched. -/
theorem colorReadStep_result_allC (s : ColorState) (c : Nat)
    (h : AllC (colorReadStep s c) c) :
    (colorReadStep s c).stableColorCount = (s.stableColorCount + 1) % 256 ∧
      ((colorReadStep s c).activeColor = c ∨
        (colorReadStep s c).activeColor = s.activeColor) := by
  rw [colorReadStep_char] at h ⊢
  by_cases hb : AllC (bufWrite s c) c
  · rw [if_pos hb] at h ⊢
    refine ⟨rfl, ?_⟩
    dsimp only
    split
    · exact Or.inl rfl
    · exact Or.inr rfl
  · rw [if_neg hb] at h
    exact absurd h hb

/-- Core of the corrected stability bound: from ANY classifier state
whose uint8 counter is in range, five consecutive identical raw
classifications force activeColor to that classification
(2*debounceCount - 1 = 5). -/
theorem activeColor_after_five (s : ColorState) (c : Nat) :
    (runColor s [c, c, c, c, c]).activeColor = c := by
  have hrun : runColor s [c, c, c, c, c] =
      colorReadStep (colorReadStep (colorReadStep (colorReadStep (colorReadStep s c) c) c) c) c := by
    simp only [runColor, List.foldl_cons, List.foldl_nil]
  set s1 := colorReadStep s c with hs1
  set s2 := colorReadStep s1 c with hs2
  set s3 := colorReadStep s2 c with hs3
  set s4 := colorReadStep s3 c with hs4
  have hA3 : AllC s3 c := allC_three_steps s c
  have hA4 : AllC s4 c := allC_step _ _ hA3
  have h2lt : s2.stableColorCount < 256 := count_colorReadStep_lt s1 c
  obtain ⟨h4c, h4a⟩ := colorReadStep_result_allC s3 c hA4
  have hA5 : AllC (colorReadStep s4 c) c := allC_step _ _ hA4
  obtain ⟨h5c, h5a⟩ := colorReadStep_result_allC s4 c hA5
  rw [hrun]
  by_cases h3 : 3 ≤ s3.stableColorCount
  · have e3 : s3.activeColor = c := activeColor_of_count_ge s2 c h3
    have e4 : s4.activeColor = c := by
      rcases h4a with h | h
      · exact h
      · rw [h, e3]
    rcases h5a with h | h
    · exact h
    · rw [h, e4]
  · obtain ⟨h3c, h3a⟩ := colorReadStep_result_allC s2 c hA3
    by_cases h30 : s3.stableColorCount = 0
    · have h2cnt : s2.stableColorCount = 255 := by
        rw [h3c] at h30
        omega
      have e2 : s2.activeColor = c :=
        activeColor_of_count_ge s1 c (by rw [h2cnt]; omega)
      have e3 : s3.activeColor = c := by
        rcases h3a with h | h
        · exact h
        · rw [h, e2]
      have e4 : s4.activeColor = c := by
        rcases h4a with h | h
        · exact h
        · rw [h, e3]
      rcases h5a with h | h
      · exact h
      · rw [h, e4]
    · have h5ge : 3 ≤ (colorReadStep s4 c).stableColorCount := by
        rw [h5c, h4c]
        omega
      exact activeColor_of_count_ge s4 c h5ge

/-- Counter reset / no-write when the post-write buffer is not uniform. -/
theorem colorReadStep_result_not_allC (s : ColorState) (c : Nat)
    (h : ¬ AllC (colorReadStep s c) c) :
    (colorReadStep s c).stableColorCount = 0 ∧
      (colorReadStep s c).activeColor = s.activeColor := by
  rw [colorReadStep_char] at h ⊢
  by_cases hb : AllC (bufWrite s c) c
  · rw [if_pos hb] at h
    exact absurd hb h
  · rw [if_neg hb]
    exact ⟨rfl, bufWrite_activeColor s c⟩

/-- A step whose resulting counter is still below debounceCount leaves
activeColor untouched. -/
theorem activeColor_of_count_lt (s : ColorState) (c : Nat)
    (h : (colorReadStep s c).stableColorCount < 3) :
    (colorReadStep s c).activeColor = s.activeColor := by
  rw [colorReadStep_char] at h ⊢
  by_cases hb : AllC (bufWrite s c) c
  · rw [if_pos hb] at h ⊢
    dsimp only at h ⊢
    rw [if_neg (by omega)]
  · rw [if_neg hb]
    exact bufWrite_activeColor s c

theorem hasRun3_cons (a : Nat) (l : List Nat) (h : hasRun3 l = true) :
    hasRun3 (a :: l) = true := by
  match l with
  | [] => simp [hasRun3] at h
  | [b] => simp [hasRun3] at h
  | b :: c :: t => simp [hasRun3, h]

theorem hasRun3_append_left : ∀ (l t : List Nat), hasRun3 l = true →
    hasRun3 (l ++ t) = true
  | a :: b :: c :: r, t, h => by
    simp only [hasRun3, Bool.or_eq_true] at h
    rcases h with h | h
    · simp [hasRun3, h]
    · have ih := hasRun3_append_left (b :: c :: r) t h
      simp only [List.cons_append] at ih ⊢
      simp [hasRun3, ih]

theorem hasRun3_concat_run : ∀ (q : List Nat) (c : Nat),
    hasRun3 (q ++ [c, c, c]) = true
  | [], c => by simp [hasRun3]
  | a :: q, c => by
    have ih := hasRun3_concat_run q c
    rw [List.cons_append]
    exact hasRun3_cons a _ ih

/-- Last, second-to-last and third-to-last input fed so far; 0 (the
buffer's boot value) where fewer inputs exist. -/
def lastD (p : List Nat) : Nat := p.reverse.headD 0

def last2D (p : List Nat) : Nat := p.reverse.tail.headD 0

def last3D (p : List Nat) : Nat := p.reverse.tail.tail.headD 0

theorem lastD_concat (p : List Nat) (x : Nat) : lastD (p ++ [x]) = x := by
  simp [lastD]

theorem last2D_concat (p : List Nat) (x : Nat) : last2D (p ++ [x]) = lastD p := by
  simp [last2D, lastD]

theorem last3D_concat (p : List Nat) (x : Nat) : last3D (p ++ [x]) = last2D p := by
  simp [last3D, last2D]

/-- Invariant tying the classifier state after processing the input list
p (from boot) to the trailing inputs of p, strong enough to carry the
no-change property through sequences without a debounceCount-run. -/
def DebounceInv (p : List Nat) (s : ColorState) : Prop :=
  bufAt s (s.bufferIndex - 1) = lastD p ∧
  bufAt s (s.bufferIndex - 2) = last2D p ∧
  bufAt s s.bufferIndex = last3D p ∧
  s.activeColor = 0 ∧
  s.stableColorCount ≤ 2 ∧
  s.stableColorCount ≤ p.length ∧
  (1 ≤ s.stableColorCount → lastD p = last2D p ∧ last2D p = last3D p)

theorem debounceInv_init : DebounceInv [] initColorState := by
  refine ⟨rfl, rfl, rfl, rfl, ?_, ?_, ?_⟩ <;> simp [initColorState]

theorem fin3_add_sub_one : ∀ i : Fin 3, i + 1 - 1 = i := by decide

theorem fin3_add_sub_two : ∀ i : Fin 3, i + 1 - 2 = i - 1 := by decide

theorem fin3_add_eq_sub : ∀ i : Fin 3, i + 1 = i - 2 := by decide

theorem fin3_sub_one_ne : ∀ i : Fin 3, i - 1 ≠ i := by decide

theorem fin3_sub_two_ne : ∀ i : Fin 3, i - 2 ≠ i := by decide

theorem fin3_add_one_ne : ∀ i : Fin 3, i + 1 ≠ i := by decide

theorem fin3_add_two_eq : ∀ i : Fin 3, i + 2 = i - 1 := by decide

/-- The stability test of a step, expressed on the inputs fed so far:
the post-write buffer is uniform exactly when the pushed value agrees
with the two previous inputs (as recorded by the invariant). -/
theorem allC_step_iff (p : List Nat) (s : ColorState) (x : Nat)
    (hB1 : bufAt s (s.bufferIndex - 1) = lastD p)
    (hB2 : bufAt s (s.bufferIndex - 2) = last2D p) :
    AllC (colorReadStep s x) x ↔ (lastD p = x ∧ last2D p = x) := by
  rw [allC_iff_bufAt]
  constructor
  · intro h
    constructor
    · have h1 := h (s.bufferIndex - 1)
      rw [bufAt_colorReadStep, if_neg (fin3_sub_one_ne s.bufferIndex), hB1] at h1
      exact h1
    · have h2 := h (s.bufferIndex - 2)
      rw [bufAt_colorReadStep, if_neg (fin3_sub_two_ne s.bufferIndex), hB2] at h2
      exact h2
  · rintro ⟨h1, h2⟩ j
    rw [bufAt_colorReadStep]
    by_cases hj : j = s.bufferIndex
    · rw [if_pos hj]
    · rw [if_neg hj]
      rcases fin3_cover s.bufferIndex j with hj' | hj' | hj'
      · exact absurd hj' hj
      · rw [hj', fin3_add_eq_sub, hB2, h2]
      · rw [hj', fin3_add_two_eq, hB1, h1]

/-- One step preserves the debounce invariant along run-free input. -/
theorem debounceInv_step (p : List Nat) (s : ColorState) (x : Nat)
    (hInv : DebounceInv p s) (hnr : hasRun3 (p ++ [x]) = false) :
    DebounceInv (p ++ [x]) (colorReadStep s x) := by
  obtain ⟨hB1, hB2, hB3, hAct, hC2, hCl, hEq⟩ := hInv
  have hidx := bufferIndex_colorReadStep s x
  have hAiff := allC_step_iff p s x hB1 hB2
  have hbuf1 : bufAt (colorReadStep s x) ((colorReadStep s x).bufferIndex - 1) =
      lastD (p ++ [x]) := by
    rw [hidx, fin3_add_sub_one, bufAt_colorReadStep, if_pos rfl, lastD_concat]
  have hbuf2 : bufAt (colorReadStep s x) ((colorReadStep s x).bufferIndex - 2) =
      last2D (p ++ [x]) := by
    rw [hidx, fin3_add_sub_two, bufAt_colorReadStep,
      if_neg (fin3_sub_one_ne s.bufferIndex), hB1, last2D_concat]
  have hbuf3 : bufAt (colorReadStep s x) (colorReadStep s x).bufferIndex =
      last3D (p ++ [x]) := by
    rw [hidx, bufAt_colorReadStep, if_neg (fin3_add_one_ne s.bufferIndex),
      fin3_add_eq_sub, hB2, last3D_concat]
  by_cases hst : AllC (colorReadStep s x) x
  · -- stable step: the pushed value agrees with the two previous inputs
    obtain ⟨hx1, hx2⟩ := hAiff.mp hst
    obtain ⟨hcnt, -⟩ := colorReadStep_result_allC s x hst
    have hc1 : s.stableColorCount ≤ 1 := by
      by_contra hgt
      have hc2 : s.stableColorCount = 2 := by omega
      have hlen : 2 ≤ p.length := by omega
      have heq := hEq (by omega)
      -- decompose p into q ++ [last2D p, lastD p]
      rcases hrev : p.reverse with - | ⟨a, r1⟩
      · have : p.length = 0 := by
          simpa using congrArg List.length hrev
        omega
      · rcases r1 with - | ⟨b, r⟩
        · have : p.length = 1 := by
            simpa using congrArg List.length hrev
          omega
        · have hpdec : p = r.reverse ++ [b, a] := by
            have := congrArg List.reverse hrev
            simpa [List.reverse_cons, List.append_assoc] using this
          have ha : a = x := by
            have : lastD p = a := by simp [lastD, hrev]
            omega
          have hb : b = x := by
            have : last2D p = b := by simp [last2D, hrev]
            omega
          have : hasRun3 (p ++ [x]) = true := by
            rw [hpdec, ha, hb, List.append_assoc]
            simpa using hasRun3_concat_run r.reverse x
          rw [this] at hnr
          cases hnr
    have hcnt' : (colorReadStep s x).stableColorCount = s.stableColorCount + 1 := by
      rw [hcnt]
      omega
    have hact' : (colorReadStep s x).activeColor = 0 := by
      rw [activeColor_of_count_lt s x (by omega), hAct]
    refine ⟨hbuf1, hbuf2, hbuf3, hact', by omega, ?_, ?_⟩
    · rw [hcnt']
      simp only [List.length_append, List.length_cons, List.length_nil]
      omega
    · intro _
      rw [lastD_concat, last2D_concat, last3D_concat, hx1, hx2]
      exact ⟨rfl, rfl⟩
  · -- unstable step: counter resets, nothing else observable changes
    obtain ⟨hcnt, hact⟩ := colorReadStep_result_not_allC s x hst
    refine ⟨hbuf1, hbuf2, hbuf3, by rw [hact, hAct], by omega, by omega, ?_⟩
    intro h1
    rw [hcnt] at h1
    omega

/-- Along any boot-prefix of inputs without a debounceCount-run, the
invariant holds; in particular activeColor is still 0. -/
theorem debounceInv_run : ∀ (xs p : List Nat) (s : ColorState),
    DebounceInv p s → hasRun3 (p ++ xs) = false →
    DebounceInv (p ++ xs) (runColor s xs)
  | [], p, s, hInv, _ => by simpa [runColor] using hInv
  | x :: xs, p, s, hInv, hnr => by
    have hnr1 : hasRun3 (p ++ [x]) = false := by
      by_contra hc
      have := hasRun3_append_left (p ++ [x]) xs (by
        cases h : hasRun3 (p ++ [x])
        · exact absurd h hc
        · rfl)
      rw [List.append_assoc] at this
      simp only [List.singleton_append] at this
      rw [this] at hnr
      cases hnr
    have hstep := debounceInv_step p s x hInv hnr1
    have := debounceInv_run xs (p ++ [x]) (colorReadStep s x) hstep (by
      rw [List.append_assoc]
      simpa using hnr)
    rw [List.append_assoc] at this
    simpa [runColor] using this

/-- The argmin accumulator never leaves the index range. -/
theorem closestColor_fold_lt (dist : Fin TOTAL_COLORS → ℚ) :
    ∀ (l : List (Fin TOTAL_COLORS)) (acc : Nat × ℚ), acc.1 < TOTAL_COLORS →
      (l.foldl (fun acc i => if dist i < acc.2 then ((i : Nat), dist i) else acc) acc).1 <
        TOTAL_COLORS
  | [], acc, h => h
  | i :: t, acc, h => by
    rw [List.foldl_cons]
    refine closestColor_fold_lt dist t _ ?_
    by_cases hd : dist i < acc.2
    · rw [if_pos hd]
      exact i.isLt
    · rw [if_neg hd]
      exact h

/-- The nearest-centroid search only ever selects indices below
TOTAL_COLORS. -/
theorem closestColorOf_lt (dist : Fin TOTAL_COLORS → ℚ) :
    closestColorOf dist < TOTAL_COLORS :=
  closestColor_fold_lt dist _ _ (by norm_num)

/-! ### Claim C1 (Color Classifier stability) -/

/-- C1, counterexample: from the boot state, the input sequence
[2, 2, 2] contains debounceCount = 3 consecutive identical raw
classifications, yet afterwards activeColor is still 0, not 2 — three
identical raw reads only bring the stability counter to 1, because the
counter counts consecutive ticks on which the whole 3-entry buffer is
uniform. -/
theorem colorRead_three_consecutive_insufficient :
    ¬ (runColor initColorState [2, 2, 2]).activeColor = 2 := by decide

/-- C1, amended: (1) any input sequence ENDING in at least
2*debounceCount - 1 = 5 consecutive identical raw classifications — not
the claimed 3 — leaves activeColor equal to that classification, from
any prior classifier state; (2) as claimed, an input sequence with fewer
than debounceCount consecutive agreements anywhere never changes
activeColor from its boot value. -/
theorem colorRead_debounce_stability :
    (∀ (s : ColorState) (c : Nat) (xs : List Nat),
        (runColor s (xs ++ [c, c, c, c, c])).activeColor = c) ∧
    (∀ xs : List Nat, hasRun3 xs = false →
        (runColor initColorState xs).activeColor = initColorState.activeColor) := by
  constructor
  · intro s c xs
    rw [runColor, List.foldl_append]
    exact activeColor_after_five (runColor s xs) c
  · intro xs hnr
    have h := debounceInv_run xs [] initColorState debounceInv_init
      (by simpa using hnr)
    simp only [List.nil_append] at h
    exact h.2.2.2.1

/-- C1 witness: the amended theorem applied at concrete inputs. -/
theorem colorRead_debounce_stability_witness :
    (runColor initColorState ([1, 2] ++ [2, 2, 2, 2, 2])).activeColor = 2 ∧
    (runColor initColorState [1, 2, 1, 2]).activeColor = initColorState.activeColor := by
  constructor
  · exact colorRead_debounce_stability.1 initColorState 2 [1, 2]
  · exact colorRead_debounce_stability.2 [1, 2, 1, 2] (by decide)

/-! ### Claim C5 (spike-hysteresis scenario) -/

/-- C5, counterexample: against background 40 (threshold 64 = 40 × 1.6),
the brightness sequence [10,10,62,63,64,11,10] does NOT produce the
claimed spike flags false,false,true,true,true,false,false: 62 and 63
are below the threshold 64, so the flag stays low there. -/
theorem checkForColorSpike_claimed_scenario_false :
    ¬ runSpike false 40 false [10, 10, 62, 63, 64, 11, 10] =
        [false, false, true, true, true, false, false] := by decide

/-- C5, amended: the spike-flag sequence produced by checkForColorSpike
for brightness [10,10,62,63,64,11,10] against background 40 is
false,false,false,false,true,false,false — the flag first rises at 64,
the exact threshold 40 × 1.6, since the raise condition is
brightness ≥ threshold and 62, 63 are below it. -/
theorem checkForColorSpike_scenario :
    runSpike false 40 false [10, 10, 62, 63, 64, 11, 10] =
      [false, false, false, false, true, false, false] := by decide

/-! ### Claim C10 (classifier identity range invariant) -/

/-- C10: at boot and after every colorRead call, stableColor and
activeColor are valid indices into the calibrated color table
(< TOTAL_COLORS, identity 0 being the background): the nearest-centroid
search only selects indices below TOTAL_COLORS, and the debounce update
only ever copies such a classification (or keeps the previous value). -/
theorem classifier_identity_range :
    initColorState.activeColor < TOTAL_COLORS ∧
    initColorState.stableColor < TOTAL_COLORS ∧
    ∀ (s : ColorState) (r g b : ℚ) (colors : Fin TOTAL_COLORS → RGBColor),
      s.activeColor < TOTAL_COLORS → s.stableColor < TOTAL_COLORS →
      (colorRead s r g b colors).activeColor < TOTAL_COLORS ∧
      (colorRead s r g b colors).stableColor < TOTAL_COLORS := by
  refine ⟨by decide, by decide, ?_⟩
  intro s r g b colors hact hst
  have hc : closestColorOf (colorDistances r g b colors) < TOTAL_COLORS :=
    closestColorOf_lt _
  rw [colorRead, colorReadStep_char]
  by_cases hb : AllC (bufWrite s (closestColorOf (colorDistances r g b colors)))
      (closestColorOf (colorDistances r g b colors))
  · rw [if_pos hb]
    dsimp only
    refine ⟨?_, hc⟩
    split
    · exact hc
    · exact hact
  · rw [if_neg hb]
    dsimp only
    rw [bufWrite_activeColor, bufWrite_stableColor]
    exact ⟨hact, hst⟩

/-- C10 witness: the invariant theorem applied at a concrete state and
sample. -/
theorem classifier_identity_range_witness :
    (colorRead initColorState 1 1 1 (fun _ => ⟨0, 0, 0, 0⟩)).activeColor < TOTAL_COLORS ∧
    (colorRead initColorState 1 1 1 (fun _ => ⟨0, 0, 0, 0⟩)).stableColor < TOTAL_COLORS :=
  classifier_identity_range.2.2 initColorState 1 1 1 (fun _ => ⟨0, 0, 0, 0⟩)
    (by decide) (by decide)

/-! ### Dealer state machine model (Enums.h, globals of part_001)

One record holds the globals and flag bits that the translated handlers
read or write.  Display rendering and scroll-text bookkeeping
(flags2.scrolling*, messageRepetitions, animation timers) drive only the
14-segment display and are outside the model; uint8 globals are Nat,
int8 globals are Int, millisecond tags are Nat with 32-bit wraparound
subtraction where compared. -/

inductive dealState where
  | IDLE
  | INITIALIZING
  | DEALING
  | ADVANCING
  | AWAITING_PLAYER_DECISION
  | RESET_DEALR
  deriving DecidableEq, Repr

inductive displayState where
  | DISPLAY_UNSET
  | INTRO_ANIM
  | SCROLL_PLACE_TAGS_TEXT
  | SCROLL_PICK_GAME_TEXT
  | SELECT_GAME
  | SELECT_TOOL
  | DEAL_CARDS
  | ERROR
  | STRUGGLE
  | LOOK_LEFT
  | LOOK_RIGHT
  | LOOK_STRAIGHT
  | FLIP
  | SCREENSAVER
  | CUSTOM_FACE
  deriving DecidableEq, Repr

/-- CW = true, CCW = false (Definitions.h). -/
def CW : Bool := true

def CCW : Bool := false

def highSpeed : Nat := 255

def mediumSpeed : Nat := 220

def lowSpeed : Nat := 180

/-- errorTimeout = 6000 ms; throwExpiration = 4000 ms;
reverseFeedTime = 400 ms (part_001 lines 110-112). -/
def errorTimeout : Nat := 6000

def throwExpiration : Nat := 4000

def reverseFeedTime : Nat := 400

/-- 32-bit unsigned wraparound subtraction, as computed by
currentTime - start on unsigned long. -/
def sub32 (a b : Nat) : Nat :=
  (a % 4294967296 + 4294967296 - b % 4294967296) % 4294967296

structure DealerState where
  currentDealState : dealState
  currentDisplayState : displayState
  -- flags1
  rotatingCW : Bool
  rotatingCCW : Bool
  correctingCCW : Bool
  correctingCW : Bool
  dealInitialized : Bool
  throwingCard : Bool
  cardDealt : Bool
  numCardsLocked : Bool
  -- flags2 (display/scroll bits omitted)
  newDealState : Bool
  baselineExceeded : Bool
  fineAdjustCheckStarted : Bool
  -- flags3
  cardLeftCraw : Bool
  notFirstRoundOfDeal : Bool
  buttonInitialization : Bool
  advanceOnePlayer : Bool
  gameOver : Bool
  postDeal : Bool
  insideDealrTools : Bool
  -- flags4
  toolsMenuActive : Bool
  rotatingBackwards : Bool
  postDealRemainderHandled : Bool
  fullExit : Bool
  gamesExit : Bool
  toolsExit : Bool
  errorInProgress : Bool
  currentlyPlayerLeftOfDealer : Bool
  -- flags5
  playerLeftOfDealerIdentified : Bool
  postDealStartOnRed : Bool
  handlingFlipCard : Bool
  adjustInProgress : Bool
  -- other globals
  stopped : Bool
  activeColor : Nat
  previousActiveColor : Nat
  colorLeftOfDealer : Int
  colorStatus0 : Int
  remainingRoundsToDeal : Nat
  postCardsToDeal : Int
  currentGame : Int
  currentToolsMenu : Int
  slideStep : Int
  previousSlideStep : Int
  amount : Nat
  throwStart : Nat
  lastStepTime : Nat
  retractStartTime : Nat
  overallTimeoutTag : Nat
  errorStartTime : Nat
  adjustStart : Nat
  retractStarted : Bool
  retractCompleted : Bool
  -- Game Interface Adapter: currentGamePtr and the hooks the modelled
  -- functions consult.  requiresFlip is the (per-game constant) result
  -- of currentGamePtr->requiresFlipCard(); Flip7 inherits the Game
  -- default false.
  gamePresent : Bool
  requiresFlip : Bool

/-- rotate (lines 2316-2340): flag and face updates of a rotation
command; the PWM/pin writes are hardware-only. -/
def rotate (_rotationSpeed : Nat) (direction : Bool) (s : DealerState) : DealerState :=
  if direction = CW then
    { s with rotatingCW := true, rotatingCCW := false, stopped := false,
             currentDisplayState := .LOOK_LEFT }
  else
    { s with rotatingCW := false, rotatingCCW := true, stopped := false,
             currentDisplayState := .LOOK_RIGHT }

/-- rotateStop (lines 2343-2352). -/
def rotateStop (s : DealerState) : DealerState :=
  if !s.stopped then
    { s with stopped := true, rotatingCW := false, rotatingCCW := false }
  else s

/-- rotateStop written as a single record update (ite-free form used in
proofs; equal by structure eta). -/
theorem rotateStop_char (s : DealerState) :
    rotateStop s = { s with stopped := true,
                            rotatingCW := s.stopped && s.rotatingCW,
                            rotatingCCW := s.stopped && s.rotatingCCW } := by
  unfold rotateStop
  cases h : s.stopped
  · simp [h]
  · simp only [h, Bool.not_true, Bool.false_eq_true, if_false, Bool.true_and]
    conv_rhs => rw [← h]

/-- updateDisplay (lines 1761-1873): of its display-state cases, only
ERROR mutates the dealing state (displayFace and delay, then
flags4.fullExit = true and currentDealState = RESET_DEALR, lines
1837-1842); every other case renders the display or advances
scroll/animation bookkeeping that is outside the model. -/
def updateDisplay (s : DealerState) : DealerState :=
  match s.currentDisplayState with
  | .ERROR => { s with fullExit := true, currentDealState := .RESET_DEALR }
  | _ => s

/-- resetFlags (lines 2714-2760), restricted to the modelled fields (the
omitted lines reset scroll/animation bookkeeping); now is the millis()
read. -/
def resetFlags (now : Nat) (s : DealerState) : DealerState :=
  { s with
      adjustStart := now,
      advanceOnePlayer := false,
      baselineExceeded := false,
      dealInitialized := false,
      cardDealt := false,
      cardLeftCraw := false,
      correctingCCW := false,
      correctingCW := false,
      colorLeftOfDealer := -1,
      currentlyPlayerLeftOfDealer := false,
      currentGame := 0,
      currentToolsMenu := 0,
      errorInProgress := false,
      fineAdjustCheckStarted := false,
      gameOver := false,
      insideDealrTools := false,
      numCardsLocked := false,
      newDealState := false,
      notFirstRoundOfDeal := false,
      overallTimeoutTag := now,
      postDeal := false,
      postDealRemainderHandled := false,
      postDealStartOnRed := false,
      previousSlideStep := -1,
      playerLeftOfDealerIdentified := false,
      rotatingBackwards := false,
      rotatingCW := false,
      rotatingCCW := false,
      remainingRoundsToDeal := 0,
      stopped := true,
      slideStep := 0,
      throwingCard := false,
      colorStatus0 := -1 }

/-- handleResetDealrState (lines 1039-1080): null the game pointer,
resetFlags, dispatch on the exit-reason flag (scrollInstructions is true
in Config.h, so a full exit shows SCROLL_PLACE_TAGS_TEXT), then IDLE and
a display refresh. -/
def handleResetDealrState (now : Nat) (s0 : DealerState) : DealerState :=
  let s := resetFlags now { s0 with gamePresent := false }
  let s :=
    if s.fullExit then
      { s with currentGame := 0, currentToolsMenu := 0,
               buttonInitialization := false, toolsMenuActive := false,
               currentDisplayState := .SCROLL_PLACE_TAGS_TEXT, fullExit := false }
    else if s.gamesExit then
      { s with currentToolsMenu := 0, buttonInitialization := true,
               toolsMenuActive := false, currentDisplayState := .SELECT_GAME,
               gamesExit := false }
    else if s.toolsExit then
      { s with currentGame := 0, buttonInitialization := true,
               toolsMenuActive := true, currentDisplayState := .SELECT_TOOL,
               toolsExit := false }
    else s
  updateDisplay { s with currentDealState := .IDLE }

/-- Default Game::onMainDealEnd (Game.h), reached through
_onMainDealEnd; Flip7 does not override it.  It declares game over when
postCardsToDeal has run out.  (resetScrollingMessages touches only
display bookkeeping.) -/
def Game_onMainDealEnd (s : DealerState) : DealerState :=
  if s.postCardsToDeal ≤ 0 then { s with gameOver := true } else s

/-- Tail of handleStandardGameDecisionsAfterFineAdjust (lines 976-979):
keep DEALING while the main deal is ongoing or a remainder is pending. -/
def finalStateDecision (s : DealerState) : DealerState :=
  if ¬ s.postDeal ∨ ¬ s.postDealRemainderHandled then
    { s with currentDealState := .DEALING }
  else s

/-- handleStandardGameDecisionsAfterFineAdjust, flip-card tail (lines
941-975): when the game is still running and requires a flip card, deal
it and then await the player decision; otherwise mark the remainder
handled (or fall to the final state decision on game over). -/
def postRoundFlipDecision
    (flipCard : DealerState → DealerState) (s6 : DealerState) : DealerState :=
  if s6.gameOver = false ∧ s6.gamePresent ∧ s6.requiresFlip then
    let s7 := flipCard s6
    if s7.gameOver = false then
      { s7 with currentDealState := .AWAITING_PLAYER_DECISION }
    else finalStateDecision s7
  else if s6.gameOver = false then
    { s6 with postDealRemainderHandled := true,
              currentDealState := .AWAITING_PLAYER_DECISION }
  else finalStateDecision s6

/-- handleStandardGameDecisionsAfterFineAdjust, counter-exhausted block
(lines 930-939): raise postDeal, run the game's main-deal-end hook if a
game is attached, then decide the flip-card tail. -/
def beginPostDeal
    (flipCard : DealerState → DealerState) (s4 : DealerState) : DealerState :=
  let s5 := { s4 with postDeal := true }
  let s6 := if s5.gamePresent then Game_onMainDealEnd s5 else s5
  postRoundFlipDecision flipCard s6

/-- handleStandardGameDecisionsAfterFineAdjust, return to the
left-of-dealer identity (lines 918-975): decrement the uint8 round
counter ((+255) % 256) and test it for zero. -/
def dealerTagReturn
    (flipCard : DealerState → DealerState) (s3 : DealerState) : DealerState :=
  let s4 := { s3 with
                remainingRoundsToDeal := (s3.remainingRoundsToDeal + 255) % 256 }
  if s4.remainingRoundsToDeal = 0 ∧ s4.postDeal = false then
    beginPostDeal flipCard s4
  else finalStateDecision s4

/-- handleStandardGameDecisionsAfterFineAdjust, player tag branch (lines
899-975): record the first confirmed player as left of the dealer, then
compare the sighting against that identity (uint8/int8 comparison after
integer promotion). -/
def playerTagConfirm
    (flipCard : DealerState → DealerState) (s2 : DealerState) : DealerState :=
  let s3 :=
    if s2.playerLeftOfDealerIdentified then s2
    else { s2 with playerLeftOfDealerIdentified := true,
                   colorLeftOfDealer := (s2.activeColor : Int) }
  if (s3.activeColor : Int) = s3.colorLeftOfDealer ∧ s3.notFirstRoundOfDeal then
    dealerTagReturn flipCard s3
  else finalStateDecision s3

/-- handleStandardGameDecisionsAfterFineAdjust (lines 875-983), staged
through the helpers above in source order.  flipCard abstracts
handleFlipCard (lines 1160-1172), whose motion and dispensing side
effects are a separate concern; it is reached only when the game
requires a flip card. -/
def handleStandardGameDecisionsAfterFineAdjust
    (flipCard : DealerState → DealerState) (s0 : DealerState) : DealerState :=
  let s1 := { s0 with adjustInProgress := false, fineAdjustCheckStarted := false,
                      correctingCW := false, correctingCCW := false }
  let s2 := rotateStop s1
  if s2.activeColor = 1 then
    -- red tag: record the first sighting and flag later rounds
    finalStateDecision
      (if s2.colorStatus0 = -1 then
        { s2 with colorStatus0 := 0, notFirstRoundOfDeal := true }
      else s2)
  else if 1 < s2.activeColor then
    playerTagConfirm flipCard s2
  else finalStateDecision s2

/-- handleAdvancingStateInAdjust (lines 829-853).  advanceOne abstracts
handleAdvancingOnePlayer (post-deal single-step advance, not exercised
during a primary deal); flipCard as above.  The error branch's
displayErrorMessage sets currentDealState = RESET_DEALR and refreshes
the display; its scroll-text loop is display bookkeeping. -/
def handleAdvancingStateInAdjust
    (advanceOne flipCard : DealerState → DealerState) (s0 : DealerState) : DealerState :=
  let s := { s0 with adjustInProgress := false, fineAdjustCheckStarted := false,
                     correctingCW := false, correctingCCW := false }
  if s.advanceOnePlayer then advanceOne s
  else if s.activeColor = 1 ∧ s.previousActiveColor = 1 ∧ s.postDeal = false then
    let s := { s with errorInProgress := true }
    let s := updateDisplay { s with currentDealState := .RESET_DEALR }
    { s with fullExit := true, currentDealState := .RESET_DEALR }
  else
    handleStandardGameDecisionsAfterFineAdjust flipCard s

/-- handleFineAdjustTimeout (lines 2702-2712): once more than
errorTimeout ms have elapsed since adjustStart, and unless a player
decision is being awaited, record the error time, show ERROR and drop to
IDLE; the display refresh on ERROR then routes to RESET_DEALR. -/
def handleFineAdjustTimeout (now : Nat) (s : DealerState) : DealerState :=
  if errorTimeout < sub32 now s.adjustStart ∧
      s.currentDealState ≠ .AWAITING_PLAYER_DECISION then
    updateDisplay { s with errorStartTime := now,
                           currentDisplayState := .ERROR,
                           currentDealState := .IDLE }
  else s

/-- Dealer globals right after a reset (setup/memset plus resetFlags):
all flags cleared, rotation stopped, counters reset, no game selected. -/
def bootState : DealerState :=
  { currentDealState := .IDLE,
    currentDisplayState := .INTRO_ANIM,
    rotatingCW := false, rotatingCCW := false,
    correctingCCW := false, correctingCW := false,
    dealInitialized := false, throwingCard := false,
    cardDealt := false, numCardsLocked := false,
    newDealState := false, baselineExceeded := false,
    fineAdjustCheckStarted := false,
    cardLeftCraw := false, notFirstRoundOfDeal := false,
    buttonInitialization := false, advanceOnePlayer := false,
    gameOver := false, postDeal := false, insideDealrTools := false,
    toolsMenuActive := false, rotatingBackwards := false,
    postDealRemainderHandled := false, fullExit := false,
    gamesExit := false, toolsExit := false, errorInProgress := false,
    currentlyPlayerLeftOfDealer := false,
    playerLeftOfDealerIdentified := false, postDealStartOnRed := false,
    handlingFlipCard := false, adjustInProgress := false,
    stopped := true,
    activeColor := 0, previousActiveColor := 0,
    colorLeftOfDealer := -1, colorStatus0 := -1,
    remainingRoundsToDeal := 0, postCardsToDeal := 52,
    currentGame := 0, currentToolsMenu := 0,
    slideStep := 0, previousSlideStep := -1, amount := 0,
    throwStart := 0, lastStepTime := 0, retractStartTime := 0,
    overallTimeoutTag := 0, errorStartTime := 0, adjustStart := 0,
    retractStarted := false, retractCompleted := false,
    gamePresent := false, requiresFlip := false }

/-- Dealer state right after a standard game with R requested rounds has
initialised to the red tag (game selection ran setDealAmount(R): the
Game.h helper sets remainingRoundsToDeal = R and postCardsToDeal = 127;
handleInitializingStateInAdjust, lines 810-825, stabilised on red,
stopped rotation, set dealInitialized, cleared notFirstRoundOfDeal and
moved to ADVANCING; colorStatus was reset to -1 by resetFlags when the
previous game exited). -/
def initAfterInitialize (R : Nat) : DealerState :=
  { bootState with
      currentDealState := .ADVANCING,
      dealInitialized := true,
      activeColor := 1,
      previousActiveColor := 1,
      remainingRoundsToDeal := R,
      postCardsToDeal := 127,
      gamePresent := true }

/-- One confirmed stable tag c during ADVANCING, as routed by the
orchestrator into handleStandardGameDecisionsAfterFineAdjust (the
classifier has set activeColor = c when the handler runs). -/
def confirmTag (flipCard : DealerState → DealerState) (s : DealerState)
    (c : Nat) : DealerState :=
  handleStandardGameDecisionsAfterFineAdjust flipCard { s with activeColor := c }

/-- Fold a sequence of confirmed tags through the round-accounting
handler. -/
def runTags (flipCard : DealerState → DealerState) (s : DealerState)
    (cs : List Nat) : DealerState :=
  cs.foldl (confirmTag flipCard) s

theorem updateDisplay_errorInProgress (s : DealerState) :
    (updateDisplay s).errorInProgress = s.errorInProgress := by
  unfold updateDisplay
  cases s.currentDisplayState <;> rfl

/-- A reset with the full-exit reason set always lands in IDLE. -/
theorem handleResetDealrState_fullExit (t : Nat) (s : DealerState)
    (hfe : s.fullExit = true) :
    (handleResetDealrState t s).currentDealState = .IDLE := by
  simp [handleResetDealrState, resetFlags, updateDisplay, hfe]

/-! ### Claim C4 (missing-tag detection) -/

/-- C4: during a primary deal (postDeal false, not in the post-deal
single-player advance), a fine-adjust that confirms the reference tag
(activeColor = 1) while the previous confirmed non-background identity
was also the reference tag (previousActiveColor = 1) raises the fatal
missing-tag error: flags4.errorInProgress is set, the error message is
shown, and dealing halts by routing through RESET_DEALR with the
full-exit reason. -/
theorem missingTag_detection
    (advanceOne flipCard : DealerState → DealerState) (s : DealerState)
    (hadv : s.advanceOnePlayer = false)
    (h1 : s.activeColor = 1) (h2 : s.previousActiveColor = 1)
    (h3 : s.postDeal = false) :
    (handleAdvancingStateInAdjust advanceOne flipCard s).errorInProgress = true ∧
    (handleAdvancingStateInAdjust advanceOne flipCard s).currentDealState = .RESET_DEALR ∧
    (handleAdvancingStateInAdjust advanceOne flipCard s).fullExit = true := by
  unfold handleAdvancingStateInAdjust
  rw [if_neg (by simp [hadv]), if_pos (by exact ⟨h1, h2, h3⟩)]
  refine ⟨?_, rfl, rfl⟩
  have := updateDisplay_errorInProgress
    { s with adjustInProgress := false, fineAdjustCheckStarted := false,
             correctingCW := false, correctingCCW := false,
             errorInProgress := true, currentDealState := .RESET_DEALR }
  exact this

/-- C4 witness: the detection theorem at a concrete mid-deal state. -/
theorem missingTag_detection_witness :
    (handleAdvancingStateInAdjust id id
      { initAfterInitialize 2 with adjustInProgress := true }).errorInProgress = true ∧
    (handleAdvancingStateInAdjust id id
      { initAfterInitialize 2 with adjustInProgress := true }).currentDealState = .RESET_DEALR ∧
    (handleAdvancingStateInAdjust id id
      { initAfterInitialize 2 with adjustInProgress := true }).fullExit = true :=
  missingTag_detection id id _ (by decide) (by decide) (by decide) (by decide)

/-! ### Claim C8 (fine-adjust timeout) -/

/-- C8: once more than errorTimeout = 6000 ms elapse past adjustStart,
handleFineAdjustTimeout records the error time and shows ERROR — whose
display refresh routes the deal to RESET_DEALR with the full-exit
reason, whence the reset handler returns the deal state to IDLE — except
when a player decision is being awaited, in which case the state is left
completely unchanged. -/
theorem fineAdjust_timeout (now t2 : Nat) (s : DealerState)
    (helapsed : errorTimeout < sub32 now s.adjustStart) :
    (s.currentDealState ≠ .AWAITING_PLAYER_DECISION →
      (handleFineAdjustTimeout now s).currentDisplayState = .ERROR ∧
      (handleFineAdjustTimeout now s).errorStartTime = now ∧
      (handleFineAdjustTimeout now s).fullExit = true ∧
      (handleFineAdjustTimeout now s).currentDealState = .RESET_DEALR ∧
      (handleResetDealrState t2 (handleFineAdjustTimeout now s)).currentDealState = .IDLE) ∧
    (s.currentDealState = .AWAITING_PLAYER_DECISION →
      handleFineAdjustTimeout now s = s) := by
  constructor
  · intro hne
    have hcond : errorTimeout < sub32 now s.adjustStart ∧
        s.currentDealState ≠ dealState.AWAITING_PLAYER_DECISION := ⟨helapsed, hne⟩
    unfold handleFineAdjustTimeout
    rw [if_pos hcond]
    refine ⟨rfl, rfl, rfl, rfl, ?_⟩
    exact handleResetDealrState_fullExit t2 _ rfl
  · intro heq
    unfold handleFineAdjustTimeout
    rw [if_neg (by simp [heq])]

/-- C8 witness: the timeout theorem at a concrete elapsed time, both in
a normal deal state and while awaiting a player decision. -/
theorem fineAdjust_timeout_witness :
    ((handleFineAdjustTimeout 6001 { bootState with currentDealState := .ADVANCING }).currentDealState = .RESET_DEALR ∧
      (handleResetDealrState 0 (handleFineAdjustTimeout 6001
        { bootState with currentDealState := .ADVANCING })).currentDealState = .IDLE) ∧
    handleFineAdjustTimeout 6001
        { bootState with currentDealState := .AWAITING_PLAYER_DECISION } =
      { bootState with currentDealState := .AWAITING_PLAYER_DECISION } := by
  constructor
  · have h := (fineAdjust_timeout 6001 0
      { bootState with currentDealState := .ADVANCING } (by decide)).1 (by decide)
    exact ⟨h.2.2.2.1, h.2.2.2.2⟩
  · exact (fineAdjust_timeout 6001 0
      { bootState with currentDealState := .AWAITING_PLAYER_DECISION } (by decide)).2 rfl

/-! ### Claim C2 (round accounting) -/

/-- Deal paused mid-first-lap: the player left of the dealer has been
identified but the reference tag has not been re-sighted yet. -/
def Phase1Deal (p R : Nat) (s : DealerState) : Prop :=
  s.playerLeftOfDealerIdentified = true ∧
  s.colorLeftOfDealer = (p : Int) ∧
  s.colorStatus0 = -1 ∧
  s.notFirstRoundOfDeal = false ∧
  s.remainingRoundsToDeal = R ∧
  s.postDeal = false ∧
  s.postDealRemainderHandled = false ∧
  s.gameOver = false ∧
  s.gamePresent = true ∧
  s.requiresFlip = false ∧
  s.postCardsToDeal = 127

/-- Deal state once the first lap has completed (reference tag
re-sighted): every further sighting of the left-of-dealer identity
decrements the round counter, which currently reads r. -/
def SteadyDeal (p : Nat) (r : Nat) (s : DealerState) : Prop :=
  s.playerLeftOfDealerIdentified = true ∧
  s.colorLeftOfDealer = (p : Int) ∧
  s.colorStatus0 = 0 ∧
  s.notFirstRoundOfDeal = true ∧
  s.remainingRoundsToDeal = r ∧
  s.postDeal = false ∧
  s.postDealRemainderHandled = false ∧
  s.gameOver = false ∧
  s.gamePresent = true ∧
  s.requiresFlip = false ∧
  s.postCardsToDeal = 127

/-- Confirming the left-of-dealer tag for the very first time records it
and does not decrement the counter. -/
theorem confirmTag_first_left (f : DealerState → DealerState) (p R : Nat)
    (s : DealerState) (hp : 2 ≤ p)
    (hid : s.playerLeftOfDealerIdentified = false)
    (hcs : s.colorStatus0 = -1)
    (hnf : s.notFirstRoundOfDeal = false)
    (hr : s.remainingRoundsToDeal = R)
    (hpd : s.postDeal = false)
    (hrh : s.postDealRemainderHandled = false)
    (hgo : s.gameOver = false)
    (hgp : s.gamePresent = true)
    (hrf : s.requiresFlip = false)
    (hpc : s.postCardsToDeal = 127) :
    Phase1Deal p R (confirmTag f s p) := by
  have hp1 : ¬ p = 1 := by omega
  have hp2 : 1 < p := hp
  simp only [confirmTag, handleStandardGameDecisionsAfterFineAdjust, playerTagConfirm,
    dealerTagReturn, beginPostDeal, postRoundFlipDecision, rotateStop_char,
    finalStateDecision, Phase1Deal, hid, hnf, hpd, if_neg hp1, if_pos hp2,
    Bool.false_eq_true, if_false, and_false, not_false_eq_true, true_or, if_true]
  simp [hcs, hr, hrh, hgo, hgp, hrf, hpc]

/-- Confirming any other player tag during the first lap changes
nothing in the round accounting. -/
theorem confirmTag_phase1_other (f : DealerState → DealerState) (p R q : Nat)
    (s : DealerState) (hq : 2 ≤ q) (_hqp : q ≠ p)
    (h : Phase1Deal p R s) : Phase1Deal p R (confirmTag f s q) := by
  obtain ⟨h1, h2, h3, h4, h5, h6, h7, h8, h9, h10, h11⟩ := h
  have hq1 : ¬ q = 1 := by omega
  have hq2 : 1 < q := hq
  simp only [confirmTag, handleStandardGameDecisionsAfterFineAdjust, playerTagConfirm,
    dealerTagReturn, beginPostDeal, postRoundFlipDecision, rotateStop_char,
    finalStateDecision, Phase1Deal, h1, h2, h4, h6, if_neg hq1, if_pos hq2,
    Bool.false_eq_true, if_false, and_false, if_true, not_false_eq_true, true_or]
  simp [h3, h5, h7, h8, h9, h10, h11]

/-- Re-sighting the reference tag at the end of the first lap marks the
first round as complete. -/
theorem confirmTag_phase1_red (f : DealerState → DealerState) (p R : Nat)
    (s : DealerState) (h : Phase1Deal p R s) :
    SteadyDeal p R (confirmTag f s 1) := by
  obtain ⟨h1, h2, h3, h4, h5, h6, h7, h8, h9, h10, h11⟩ := h
  simp only [confirmTag, handleStandardGameDecisionsAfterFineAdjust, playerTagConfirm,
    dealerTagReturn, beginPostDeal, postRoundFlipDecision, rotateStop_char,
    finalStateDecision, SteadyDeal, h3, h6, if_pos rfl, if_true, not_false_eq_true,
    true_or, Bool.false_eq_true, if_false]
  simp [h1, h2, h5, h7, h8, h9, h10, h11]

/-- Re-sighting the reference tag after the first lap changes nothing. -/
theorem confirmTag_steady_red (f : DealerState → DealerState) (p r : Nat)
    (s : DealerState) (h : SteadyDeal p r s) :
    SteadyDeal p r (confirmTag f s 1) := by
  obtain ⟨h1, h2, h3, h4, h5, h6, h7, h8, h9, h10, h11⟩ := h
  simp only [confirmTag, handleStandardGameDecisionsAfterFineAdjust, playerTagConfirm,
    dealerTagReturn, beginPostDeal, postRoundFlipDecision, rotateStop_char,
    finalStateDecision, SteadyDeal, h3, h6, if_pos rfl, if_true, not_false_eq_true,
    true_or, Bool.false_eq_true, if_false]
  simp [h1, h2, h4, h5, h7, h8, h9, h10, h11]

/-- Confirming a player tag different from the left-of-dealer identity
after the first lap changes nothing in the round accounting. -/
theorem confirmTag_steady_other (f : DealerState → DealerState) (p r q : Nat)
    (s : DealerState) (hq : 2 ≤ q) (hqp : q ≠ p)
    (h : SteadyDeal p r s) : SteadyDeal p r (confirmTag f s q) := by
  obtain ⟨h1, h2, h3, h4, h5, h6, h7, h8, h9, h10, h11⟩ := h
  have hq1 : ¬ q = 1 := by omega
  have hq2 : 1 < q := hq
  have hcast : ¬ ((q : Int) = (p : Int)) := by
    exact_mod_cast hqp
  simp only [confirmTag, handleStandardGameDecisionsAfterFineAdjust, playerTagConfirm,
    dealerTagReturn, beginPostDeal, postRoundFlipDecision, rotateStop_char,
    finalStateDecision, SteadyDeal, h1, h2, h6, if_neg hq1, if_pos hq2, if_true,
    if_neg (by simp [hcast] : ¬ ((q : Int) = (p : Int) ∧ True)),
    not_false_eq_true, true_or, Bool.false_eq_true, if_false]
  simp [h3, h4, h5, h7, h8, h9, h10, h11, hcast]

/-- A return to the left-of-dealer identity after the first lap, with
more than one round remaining, decrements the round counter and keeps
dealing. -/
theorem confirmTag_steady_dec (f : DealerState → DealerState) (p r : Nat)
    (s : DealerState) (hp : 2 ≤ p) (hr2 : 2 ≤ r) (hr255 : r ≤ 255)
    (h : SteadyDeal p r s) : SteadyDeal p (r - 1) (confirmTag f s p) := by
  obtain ⟨h1, h2, h3, h4, h5, h6, h7, h8, h9, h10, h11⟩ := h
  have hp1 : ¬ p = 1 := by omega
  have hp2 : 1 < p := hp
  have hdec : (r + 255) % 256 = r - 1 := by omega
  have hne : ¬ (r - 1 = 0) := by omega
  simp only [confirmTag, handleStandardGameDecisionsAfterFineAdjust, playerTagConfirm,
    dealerTagReturn, beginPostDeal, postRoundFlipDecision, rotateStop_char,
    finalStateDecision, SteadyDeal, h1, h2, h4, h5, h6, if_neg hp1, if_pos hp2,
    if_true, hdec, and_true, if_neg hne,
    not_false_eq_true, true_or, Bool.false_eq_true, if_false]
  simp [h3, h7, h8, h9, h10, h11]

/-- The final return to the left-of-dealer identity (one round left)
zeroes the counter and begins the post-deal phase: in a standard game
with no flip card and cards remaining, the hook leaves the game running
and the deal moves to AWAITING_PLAYER_DECISION with the remainder marked
handled. -/
theorem confirmTag_steady_final (f : DealerState → DealerState) (p : Nat)
    (s : DealerState) (hp : 2 ≤ p) (h : SteadyDeal p 1 s) :
    (confirmTag f s p).postDeal = true ∧
    (confirmTag f s p).remainingRoundsToDeal = 0 ∧
    (confirmTag f s p).currentDealState = .AWAITING_PLAYER_DECISION ∧
    (confirmTag f s p).postDealRemainderHandled = true := by
  obtain ⟨h1, h2, h3, h4, h5, h6, h7, h8, h9, h10, h11⟩ := h
  have hp1 : ¬ p = 1 := by omega
  have hp2 : 1 < p := hp
  simp only [confirmTag, handleStandardGameDecisionsAfterFineAdjust, playerTagConfirm,
    dealerTagReturn, beginPostDeal, postRoundFlipDecision, rotateStop_char,
    finalStateDecision, Game_onMainDealEnd, h1, h2, h4, h5, h6, h8, h9, h10, h11,
    if_neg hp1, if_pos hp2, if_true, and_true, and_self]
  norm_num

theorem runTags_append (f : DealerState → DealerState) (s : DealerState)
    (l1 l2 : List Nat) :
    runTags f s (l1 ++ l2) = runTags f (runTags f s l1) l2 := by
  simp [runTags, List.foldl_append]

theorem runTags_phase1_rest (f : DealerState → DealerState) (p R : Nat) :
    ∀ (rest : List Nat) (s : DealerState),
      (∀ q ∈ rest, 2 ≤ q ∧ q ≠ p) → Phase1Deal p R s →
      Phase1Deal p R (runTags f s rest)
  | [], s, _, h => h
  | q :: t, s, hrest, h => by
    have hq := hrest q (by simp)
    have hstep := confirmTag_phase1_other f p R q s hq.1 hq.2 h
    exact runTags_phase1_rest f p R t (confirmTag f s q)
      (fun x hx => hrest x (by simp [hx])) hstep

theorem runTags_steady_rest (f : DealerState → DealerState) (p r : Nat) :
    ∀ (rest : List Nat) (s : DealerState),
      (∀ q ∈ rest, 2 ≤ q ∧ q ≠ p) → SteadyDeal p r s →
      SteadyDeal p r (runTags f s rest)
  | [], s, _, h => h
  | q :: t, s, hrest, h => by
    have hq := hrest q (by simp)
    have hstep := confirmTag_steady_other f p r q s hq.1 hq.2 h
    exact runTags_steady_rest f p r t (confirmTag f s q)
      (fun x hx => hrest x (by simp [hx])) hstep

/-- The first lap after initialisation: the left-of-dealer identity is
recorded at its first sighting, the other players change nothing, and
the reference re-sighting completes the first round with the counter
still at R. -/
theorem runTags_first_lap (f : DealerState → DealerState) (p R : Nat)
    (rest : List Nat) (s : DealerState) (hp : 2 ≤ p)
    (hrest : ∀ q ∈ rest, 2 ≤ q ∧ q ≠ p)
    (hid : s.playerLeftOfDealerIdentified = false)
    (hcs : s.colorStatus0 = -1)
    (hnf : s.notFirstRoundOfDeal = false)
    (hr : s.remainingRoundsToDeal = R)
    (hpd : s.postDeal = false)
    (hrh : s.postDealRemainderHandled = false)
    (hgo : s.gameOver = false)
    (hgp : s.gamePresent = true)
    (hrf : s.requiresFlip = false)
    (hpc : s.postCardsToDeal = 127) :
    SteadyDeal p R (runTags f s ((p :: rest) ++ [1])) := by
  have h1 := confirmTag_first_left f p R s hp hid hcs hnf hr hpd hrh hgo hgp hrf hpc
  have hcons : (p :: rest) ++ [1] = p :: (rest ++ [1]) := by simp
  rw [hcons]
  have hrun : runTags f s (p :: (rest ++ [1])) =
      runTags f (confirmTag f s p) (rest ++ [1]) := rfl
  rw [hrun, runTags_append]
  exact confirmTag_phase1_red f p R _
    (runTags_phase1_rest f p R rest _ hrest h1)

/-- Each later lap decrements the counter exactly once, at the return to
the left-of-dealer identity. -/
theorem runTags_steady_lap (f : DealerState → DealerState) (p r : Nat)
    (rest : List Nat) (s : DealerState) (hp : 2 ≤ p)
    (hrest : ∀ q ∈ rest, 2 ≤ q ∧ q ≠ p)
    (hr2 : 2 ≤ r) (hr255 : r ≤ 255) (h : SteadyDeal p r s) :
    SteadyDeal p (r - 1) (runTags f s ((p :: rest) ++ [1])) := by
  have h1 := confirmTag_steady_dec f p r s hp hr2 hr255 h
  have hcons : (p :: rest) ++ [1] = p :: (rest ++ [1]) := by simp
  rw [hcons]
  have hrun : runTags f s (p :: (rest ++ [1])) =
      runTags f (confirmTag f s p) (rest ++ [1]) := rfl
  rw [hrun, runTags_append]
  exact confirmTag_steady_red f p (r - 1) _
    (runTags_steady_rest f p (r - 1) rest _ hrest h1)

theorem runTags_steady_laps (f : DealerState → DealerState) (p : Nat)
    (rest : List Nat) (hp : 2 ≤ p)
    (hrest : ∀ q ∈ rest, 2 ≤ q ∧ q ≠ p) :
    ∀ (j r : Nat) (s : DealerState), SteadyDeal p r s → j < r → r ≤ 255 →
      SteadyDeal p (r - j)
        (runTags f s (List.flatten (List.replicate j ((p :: rest) ++ [1]))))
  | 0, r, s, h, _, _ => by simpa [runTags] using h
  | j + 1, r, s, h, hj, hr255 => by
    rw [List.replicate_succ, List.flatten_cons, runTags_append]
    have hlap := runTags_steady_lap f p r rest s hp hrest (by omega) hr255 h
    have := runTags_steady_laps f p rest hp hrest j (r - 1) _ hlap (by omega) (by omega)
    have harith : r - 1 - j = r - (j + 1) := by omega
    rwa [harith] at this

/-- C2: in a standard deal with left-of-dealer identity p, further
players rest (in rotation order, the reference tag closing each lap) and
R requested rounds, handleStandardGameDecisionsAfterFineAdjust
decrements remainingRoundsToDeal exactly once per confirmed return to p
once the first lap has completed — after j laps the counter reads
R - (j - 1) and post-deal has not begun — and the post-deal phase
(flags3.postDeal) begins exactly at the R-th return to p after the first
lap, when the counter reaches zero, whereupon the deal awaits a player
decision.  This holds for any choice of p. -/
theorem roundAccounting (f : DealerState → DealerState) (R p : Nat)
    (rest : List Nat) (hR1 : 1 ≤ R) (hR255 : R ≤ 255) (hp : 2 ≤ p)
    (hrest : ∀ q ∈ rest, 2 ≤ q ∧ q ≠ p) :
    (∀ j, 1 ≤ j → j ≤ R →
      (runTags f (initAfterInitialize R)
          (List.flatten (List.replicate j ((p :: rest) ++ [1])))).remainingRoundsToDeal
        = R - (j - 1) ∧
      (runTags f (initAfterInitialize R)
          (List.flatten (List.replicate j ((p :: rest) ++ [1])))).postDeal = false) ∧
    (runTags f (initAfterInitialize R)
        (List.flatten (List.replicate R ((p :: rest) ++ [1])) ++ [p])).postDeal = true ∧
    (runTags f (initAfterInitialize R)
        (List.flatten (List.replicate R ((p :: rest) ++ [1])) ++ [p])).remainingRoundsToDeal = 0 ∧
    (runTags f (initAfterInitialize R)
        (List.flatten (List.replicate R ((p :: rest) ++ [1])) ++ [p])).currentDealState
      = .AWAITING_PLAYER_DECISION := by
  have hfirst : SteadyDeal p R
      (runTags f (initAfterInitialize R) ((p :: rest) ++ [1])) :=
    runTags_first_lap f p R rest (initAfterInitialize R) hp hrest
      rfl rfl rfl rfl rfl rfl rfl rfl rfl rfl
  have hlaps : ∀ j, 1 ≤ j → j ≤ R →
      SteadyDeal p (R - (j - 1))
        (runTags f (initAfterInitialize R)
          (List.flatten (List.replicate j ((p :: rest) ++ [1])))) := by
    intro j hj1 hjR
    obtain ⟨k, rfl⟩ : ∃ k, j = k + 1 := ⟨j - 1, by omega⟩
    rw [List.replicate_succ, List.flatten_cons, runTags_append]
    have := runTags_steady_laps f p rest hp hrest k R _ hfirst (by omega) hR255
    simpa using this
  refine ⟨fun j hj1 hjR => ?_, ?_⟩
  · have h := hlaps j hj1 hjR
    exact ⟨h.2.2.2.2.1, h.2.2.2.2.2.1⟩
  · have h := hlaps R hR1 le_rfl
    have h1 : R - (R - 1) = 1 := by omega
    rw [h1] at h
    rw [runTags_append]
    have hfin := confirmTag_steady_final f p _ hp h
    have hsingle : runTags f
        (runTags f (initAfterInitialize R)
          (List.flatten (List.replicate R ((p :: rest) ++ [1])))) [p] =
        confirmTag f (runTags f (initAfterInitialize R)
          (List.flatten (List.replicate R ((p :: rest) ++ [1])))) p := rfl
    rw [hsingle]
    exact ⟨hfin.1, hfin.2.1, hfin.2.2.1⟩

/-- C2 witness: the spec's own scenario — players 2,5,3,7 in rotation
order, R = 2 rounds — post-deal begins exactly at the 2nd return to
identity 2 after the first lap. -/
theorem roundAccounting_witness :
    (runTags id (initAfterInitialize 2)
        (List.flatten (List.replicate 2 ([2, 5, 3, 7] ++ [1])))).remainingRoundsToDeal = 1 ∧
    (runTags id (initAfterInitialize 2)
        (List.flatten (List.replicate 2 ([2, 5, 3, 7] ++ [1])))).postDeal = false ∧
    (runTags id (initAfterInitialize 2)
        (List.flatten (List.replicate 2 ([2, 5, 3, 7] ++ [1])) ++ [2])).postDeal = true ∧
    (runTags id (initAfterInitialize 2)
        (List.flatten (List.replicate 2 ([2, 5, 3, 7] ++ [1])) ++ [2])).remainingRoundsToDeal = 0 := by
  have h := roundAccounting id 2 2 [5, 3, 7] (by omega) (by omega) (by omega)
    (by intro q hq; fin_cases hq <;> omega)
  have h2 := h.1 2 (by omega) (by omega)
  exact ⟨h2.1, h2.2, h.2.1, h.2.2.1⟩

/-! ### Claim C3 (dispensing no-leak) -/

/-- slideCard (lines 2260-2313): 4-step feed sequence, re-entrant per
tick.  Servo writes are hardware-only; amount (uint8, by reference)
decrements with wraparound; the exit-beam confirmation is the
cardLeftCraw flag that pollCraw raises. -/
def slideCard (now : Nat) (s : DealerState) : DealerState :=
  if s.slideStep = 0 then
    let s := if ¬ s.slideStep = s.previousSlideStep then
               { s with previousSlideStep := s.slideStep, lastStepTime := now }
             else s
    if s.cardLeftCraw then
      let s := { s with cardLeftCraw := false, amount := (s.amount + 255) % 256 }
      if s.amount = 0 then { s with slideStep := 1 } else s
    else s
  else if s.slideStep = 1 then
    { s with lastStepTime := now, slideStep := 2 }
  else if s.slideStep = 2 then
    if ¬ s.slideStep = s.previousSlideStep ∧ reverseFeedTime ≤ sub32 now s.lastStepTime then
      { s with previousSlideStep := s.slideStep, lastStepTime := now, slideStep := 3 }
    else s
  else if s.slideStep = 3 then
    if ¬ s.slideStep = s.previousSlideStep ∧ 100 ≤ sub32 now s.lastStepTime then
      { s with previousSlideStep := -1, slideStep := 0, throwingCard := false,
               cardDealt := true, overallTimeoutTag := now }
    else s
  else s

/-- resetThrowCardState (lines 2692-2700): recovery after a throw
timeout — re-arms the feed sequence and sets cardDealt = true
unconditionally (with no exit-beam confirmation), so that the blocking
deal loop can terminate and a redeal becomes possible. -/
def resetThrowCardState (now : Nat) (s : DealerState) : DealerState :=
  { s with previousSlideStep := -1, slideStep := 0, throwingCard := false,
           cardDealt := true, overallTimeoutTag := now }

/-- handleThrowingTimeout (lines 2637-2689): once throwExpiration ms
have elapsed since throwStart, run the bounded retract (feed reverse +
flywheel reverse for retractDuration = 1000 ms, hardware-only), then
dispatch: UV-tuner tool exits to the tools menu with an error; every
other mode (including normal games, currentToolsMenu = 0) calls
resetThrowCardState. -/
def handleThrowingTimeout (now : Nat) (s : DealerState) : DealerState :=
  let s :=
    if throwExpiration ≤ sub32 now s.throwStart ∧
        s.retractStarted = false ∧ s.retractCompleted = false then
      { s with retractStarted := true, retractStartTime := now }
    else s
  let s :=
    if s.retractStarted = true ∧ 1000 ≤ sub32 now s.retractStartTime then
      { s with retractStarted := false, retractCompleted := true }
    else s
  if s.retractCompleted then
    let s := { s with retractCompleted := false }
    let s :=
      if s.currentToolsMenu = 1 then resetThrowCardState now s
      else if s.currentToolsMenu = 2 then
        { s with errorInProgress := true, toolsMenuActive := true,
                 toolsExit := true, currentDisplayState := .SELECT_TOOL }
      else resetThrowCardState now s
    updateDisplay s
  else s

/-- A dealing state mid-throw with no card seen at the exit beam. -/
def midThrowState : DealerState :=
  { bootState with
      currentDealState := .DEALING,
      currentDisplayState := .STRUGGLE,
      throwingCard := true,
      amount := 1,
      throwStart := 0 }

/-- C3, counterexample: from a mid-throw state where no card has crossed
the exit beam (cardLeftCraw = false, cardDealt = false), two
handleThrowingTimeout ticks (at 4000 ms the retract starts, at 5000 ms
it completes) reach resetThrowCardState, which sets cardDealt = true
with the beam still unseen — the throw-timeout escalation path does leak
"card dealt" without an observed exit. -/
theorem cardDealt_timeout_leak :
    midThrowState.cardDealt = false ∧
    midThrowState.cardLeftCraw = false ∧
    (handleThrowingTimeout 5000 (handleThrowingTimeout 4000 midThrowState)).cardLeftCraw
      = false ∧
    (handleThrowingTimeout 5000 (handleThrowingTimeout 4000 midThrowState)).cardDealt
      = true := by decide

/-- C3, amended: within the slideCard pipeline the claim holds — the
"card dealt" flag becomes true only in settle step 3, and the feed step
0 is left only once the exit beam has confirmed the last requested card
(cardLeftCraw observed and the remaining count reaching zero) — but the
throw-timeout escalation path (handleThrowingTimeout via
resetThrowCardState) deliberately sets cardDealt = true without an
observed exit, to re-arm the feeder and let dealing resume after the
bounded retract. -/
theorem cardDealt_only_after_exit (now : Nat) (s : DealerState) :
    ((slideCard now s).cardDealt = true → s.cardDealt = true ∨ s.slideStep = 3) ∧
    (s.slideStep = 0 → ¬ (slideCard now s).slideStep = 0 →
      s.cardLeftCraw = true ∧ (slideCard now s).amount = 0) ∧
    ((resetThrowCardState now s).cardDealt = true ∧
      (resetThrowCardState now s).cardLeftCraw = s.cardLeftCraw) := by
  refine ⟨?_, ?_, rfl, rfl⟩
  · intro h
    by_cases h3 : s.slideStep = 3
    · exact Or.inr h3
    · left
      rw [← h]
      unfold slideCard
      by_cases h0 : s.slideStep = 0
      · rw [if_pos h0]
        by_cases hprev : s.slideStep = s.previousSlideStep
        · rw [if_neg (not_not_intro hprev)]
          by_cases hcraw : s.cardLeftCraw
          · rw [if_pos hcraw]
            dsimp only
            split <;> rfl
          · rw [if_neg hcraw]
        · rw [if_pos hprev]
          by_cases hcraw : s.cardLeftCraw
          · rw [if_pos hcraw]
            dsimp only
            split <;> rfl
          · rw [if_neg hcraw]
      · rw [if_neg h0]
        by_cases h1 : s.slideStep = 1
        · rw [if_pos h1]
        · rw [if_neg h1]
          by_cases h2 : s.slideStep = 2
          · rw [if_pos h2]
            split <;> rfl
          · rw [if_neg h2, if_neg h3]
  · intro h0 hmv
    unfold slideCard at hmv ⊢
    rw [if_pos h0] at hmv ⊢
    by_cases hprev : s.slideStep = s.previousSlideStep
    · rw [if_neg (not_not_intro hprev)] at hmv ⊢
      by_cases hcraw : s.cardLeftCraw
      · rw [if_pos hcraw] at hmv ⊢
        refine ⟨hcraw, ?_⟩
        dsimp only at hmv ⊢
        split at hmv
        · next hamt =>
          rw [if_pos hamt]
          exact hamt
        · next hamt =>
          exact absurd h0 hmv
      · rw [if_neg hcraw] at hmv
        exact absurd h0 hmv
    · rw [if_pos hprev] at hmv ⊢
      by_cases hcraw : s.cardLeftCraw
      · rw [if_pos hcraw] at hmv ⊢
        refine ⟨hcraw, ?_⟩
        dsimp only at hmv ⊢
        split at hmv
        · next hamt =>
          rw [if_pos hamt]
          exact hamt
        · next hamt =>
          exact absurd h0 hmv
      · rw [if_neg hcraw] at hmv
        exact absurd h0 hmv

/-- C3 witness: the amended theorem at a concrete tick. -/
theorem cardDealt_only_after_exit_witness :
    ((slideCard 0 midThrowState).cardDealt = true →
      midThrowState.cardDealt = true ∨ midThrowState.slideStep = 3) ∧
    (resetThrowCardState 0 midThrowState).cardDealt = true :=
  ⟨(cardDealt_only_after_exit 0 midThrowState).1,
    (cardDealt_only_after_exit 0 midThrowState).2.2.1⟩

/-! ### Claim C6 (consecutive-deal bound) -/

/-- Guard at the head of dealSingleCard (lines 611-635): the static
counter consecutiveDeals gates the dispensing loop.  In the dispensing
branch (counter < 3) the function runs cardDispensingActions to
completion and — in this firmware — never increments the counter; the
else branch would clear the counter and force ADVANCING.  Returns the
counter after the call and whether the call dispensed (true) or forced
an advance (false). -/
def dealSingleCardGuard (consecutiveDeals : Nat) : Nat × Bool :=
  if consecutiveDeals < 3 then (consecutiveDeals, true) else (0, false)

/-- Counter value after n consecutive dealSingleCard invocations with no
intervening advance, starting from the boot value 0. -/
def dealCalls : Nat → Nat
  | 0 => 0
  | n + 1 => (dealSingleCardGuard (dealCalls n)).1

/-- C6: the consecutive-deal counter is never incremented anywhere in
dealSingleCard, so it stays 0 across any number of back-to-back
invocations and every invocation — the 4th included — takes the
dispensing branch; the forced-ADVANCING branch that the claim (and the
code's own comment about avoiding more than three deals in a row)
describes is unreachable. -/
theorem consecutiveDeals_never_incremented :
    ∀ n : Nat, dealCalls n = 0 ∧ (dealSingleCardGuard (dealCalls n)).2 = true
  | 0 => ⟨rfl, rfl⟩
  | n + 1 => by
    have ih := consecutiveDeals_never_incremented n
    constructor
    · show (dealSingleCardGuard (dealCalls n)).1 = 0
      rw [ih.1]
      rfl
    · show (dealSingleCardGuard (dealCalls (n + 1))).2 = true
      have : dealCalls (n + 1) = 0 := by
        show (dealSingleCardGuard (dealCalls n)).1 = 0
        rw [ih.1]
        rfl
      rw [this]
      rfl

/-! ### Claim C7 (calibration self-initialisation)

EEPROM modelled as a byte array (Nat → Nat).  sizeof(RGBColor) = 8
(four uint16 fields); EEPROM.put serialises the struct field by field,
each uint16 as two little-endian bytes (AVR).  Addresses:
version byte at 0, color record i at i*8 + 1 (occupying [i*8+1, i*8+9)),
UV threshold at UV_THRESHOLD_ADDR = TOTAL_COLORS*8 + 2 = 74. -/

def EEPROM_VERSION_ADDR : Nat := 0

def EEPROM_VERSION : Nat := 1

def UV_THRESHOLD_ADDR : Nat := TOTAL_COLORS * 8 + 2

def defaultUVThreshold : Nat := 11

/-- EEPROM.write of one byte. -/
def eepromWrite (e : Nat → Nat) (a v : Nat) : Nat → Nat :=
  Function.update e a (v % 256)

/-- EEPROM.put of a uint16: two little-endian bytes. -/
def eepromPut16 (e : Nat → Nat) (a v : Nat) : Nat → Nat :=
  eepromWrite (eepromWrite e a v) (a + 1) (v / 256)

/-- EEPROM.get of a uint16. -/
def eepromGet16 (e : Nat → Nat) (a : Nat) : Nat :=
  e a + 256 * e (a + 1)

/-- writeColorToEEPROM (lines 2810-2814): EEPROM.put of an RGBColor at
addr = index * sizeof(RGBColor) + 1, fields r,g,b,avgC in declaration
order. -/
def writeColorToEEPROM (e : Nat → Nat) (index : Nat) (color : RGBColor) : Nat → Nat :=
  eepromPut16 (eepromPut16 (eepromPut16 (eepromPut16 e
    (index * 8 + 1) color.r)
    (index * 8 + 3) color.g)
    (index * 8 + 5) color.b)
    (index * 8 + 7) color.avgC

/-- readColorFromEEPROM (lines 2828-2834). -/
def readColorFromEEPROM (e : Nat → Nat) (index : Nat) : RGBColor :=
  { r := eepromGet16 e (index * 8 + 1),
    g := eepromGet16 e (index * 8 + 3),
    b := eepromGet16 e (index * 8 + 5),
    avgC := eepromGet16 e (index * 8 + 7) }

/-- Compiled-in defaults (ColorNames.h, defaultColors[TOTAL_COLORS]);
indices past the table are never written or read by the loop. -/
def defaultColors : Nat → RGBColor
  | 0 => ⟨58, 149, 48, 118⟩
  | 1 => ⟨121, 105, 29, 255⟩
  | 2 => ⟨73, 157, 25, 255⟩
  | 3 => ⟨35, 132, 89, 255⟩
  | 4 => ⟨41, 173, 41, 255⟩
  | 5 => ⟨54, 138, 63, 255⟩
  | 6 => ⟨53, 136, 66, 255⟩
  | 7 => ⟨58, 108, 89, 255⟩
  | 8 => ⟨37, 108, 110, 255⟩
  | _ => ⟨0, 0, 0, 0⟩

/-- The ascending for-loop of initializeEEPROM after n iterations:
default records 0..n-1 written. -/
def writeDefaultColorsUpTo (e : Nat → Nat) : Nat → (Nat → Nat)
  | 0 => e
  | n + 1 => writeColorToEEPROM (writeDefaultColorsUpTo e n) n (defaultColors n)

/-- initializeEEPROM (lines 2794-2808): if the stored version byte
differs from EEPROM_VERSION, write all TOTAL_COLORS default centroids,
put the default UV threshold, and write the version byte; otherwise
leave the EEPROM untouched. -/
def initializeEEPROM (e : Nat → Nat) : Nat → Nat :=
  if ¬ e EEPROM_VERSION_ADDR = EEPROM_VERSION then
    eepromWrite
      (eepromPut16 (writeDefaultColorsUpTo e TOTAL_COLORS)
        UV_THRESHOLD_ADDR defaultUVThreshold)
      EEPROM_VERSION_ADDR EEPROM_VERSION
  else e

theorem eepromPut16_frame (e : Nat → Nat) (a v a' : Nat)
    (h1 : a' ≠ a) (h2 : a' ≠ a + 1) :
    eepromPut16 e a v a' = e a' := by
  unfold eepromPut16 eepromWrite
  rw [Function.update_noteq h2, Function.update_noteq h1]

theorem eepromGet16_put16_frame (e : Nat → Nat) (a v a' : Nat)
    (h : a' + 1 < a ∨ a + 2 ≤ a') :
    eepromGet16 (eepromPut16 e a v) a' = eepromGet16 e a' := by
  unfold eepromGet16
  rw [eepromPut16_frame e a v a' (by omega) (by omega),
    eepromPut16_frame e a v (a' + 1) (by omega) (by omega)]

theorem eepromGet16_put16_same (e : Nat → Nat) (a v : Nat) (hv : v < 65536) :
    eepromGet16 (eepromPut16 e a v) a = v := by
  unfold eepromGet16 eepromPut16 eepromWrite
  rw [Function.update_noteq (by omega : a ≠ a + 1), Function.update_same,
    Function.update_same]
  omega

/-- writeColorToEEPROM touches only the 8 bytes of record index. -/
theorem writeColorToEEPROM_frame (e : Nat → Nat) (index : Nat)
    (c : RGBColor) (a : Nat) (h : a < index * 8 + 1 ∨ index * 8 + 9 ≤ a) :
    writeColorToEEPROM e index c a = e a := by
  unfold writeColorToEEPROM
  rw [eepromPut16_frame _ _ _ _ (by omega) (by omega),
    eepromPut16_frame _ _ _ _ (by omega) (by omega),
    eepromPut16_frame _ _ _ _ (by omega) (by omega),
    eepromPut16_frame _ _ _ _ (by omega) (by omega)]

theorem readColor_writeColor (e : Nat → Nat) (index : Nat) (c : RGBColor)
    (hr : c.r < 65536) (hg : c.g < 65536) (hb : c.b < 65536)
    (hc : c.avgC < 65536) :
    readColorFromEEPROM (writeColorToEEPROM e index c) index = c := by
  unfold readColorFromEEPROM writeColorToEEPROM
  have h1 : eepromGet16 (eepromPut16 (eepromPut16 (eepromPut16 (eepromPut16 e
      (index * 8 + 1) c.r) (index * 8 + 3) c.g) (index * 8 + 5) c.b)
      (index * 8 + 7) c.avgC) (index * 8 + 1) = c.r := by
    rw [eepromGet16_put16_frame _ _ _ _ (by omega),
      eepromGet16_put16_frame _ _ _ _ (by omega),
      eepromGet16_put16_frame _ _ _ _ (by omega),
      eepromGet16_put16_same _ _ _ hr]
  have h2 : eepromGet16 (eepromPut16 (eepromPut16 (eepromPut16 (eepromPut16 e
      (index * 8 + 1) c.r) (index * 8 + 3) c.g) (index * 8 + 5) c.b)
      (index * 8 + 7) c.avgC) (index * 8 + 3) = c.g := by
    rw [eepromGet16_put16_frame _ _ _ _ (by omega),
      eepromGet16_put16_frame _ _ _ _ (by omega),
      eepromGet16_put16_same _ _ _ hg]
  have h3 : eepromGet16 (eepromPut16 (eepromPut16 (eepromPut16 (eepromPut16 e
      (index * 8 + 1) c.r) (index * 8 + 3) c.g) (index * 8 + 5) c.b)
      (index * 8 + 7) c.avgC) (index * 8 + 5) = c.b := by
    rw [eepromGet16_put16_frame _ _ _ _ (by omega),
      eepromGet16_put16_same _ _ _ hb]
  have h4 : eepromGet16 (eepromPut16 (eepromPut16 (eepromPut16 (eepromPut16 e
      (index * 8 + 1) c.r) (index * 8 + 3) c.g) (index * 8 + 5) c.b)
      (index * 8 + 7) c.avgC) (index * 8 + 7) = c.avgC := by
    rw [eepromGet16_put16_same _ _ _ hc]
  rw [h1, h2, h3, h4]

/-- Reading a record untouched by a write to a different record. -/
theorem readColor_writeColor_frame (e : Nat → Nat) (i j : Nat)
    (c : RGBColor) (h : j < i) :
    readColorFromEEPROM (writeColorToEEPROM e i c) j =
      readColorFromEEPROM e j := by
  unfold readColorFromEEPROM eepromGet16
  rw [writeColorToEEPROM_frame _ _ _ _ (by omega),
    writeColorToEEPROM_frame _ _ _ _ (by omega),
    writeColorToEEPROM_frame _ _ _ _ (by omega),
    writeColorToEEPROM_frame _ _ _ _ (by omega),
    writeColorToEEPROM_frame _ _ _ _ (by omega),
    writeColorToEEPROM_frame _ _ _ _ (by omega),
    writeColorToEEPROM_frame _ _ _ _ (by omega),
    writeColorToEEPROM_frame _ _ _ _ (by omega)]

theorem defaultColors_bounds (n : Nat) :
    (defaultColors n).r < 65536 ∧ (defaultColors n).g < 65536 ∧
    (defaultColors n).b < 65536 ∧ (defaultColors n).avgC < 65536 := by
  rcases n with _ | _ | _ | _ | _ | _ | _ | _ | _ | n <;>
    simp [defaultColors]

theorem writeDefaultColorsUpTo_frame (e : Nat → Nat) :
    ∀ (n a : Nat), (a = 0 ∨ 8 * n + 1 ≤ a) →
      writeDefaultColorsUpTo e n a = e a
  | 0, a, _ => rfl
  | n + 1, a, h => by
    unfold writeDefaultColorsUpTo
    rw [writeColorToEEPROM_frame _ _ _ _ (by omega)]
    exact writeDefaultColorsUpTo_frame e n a (by omega)

theorem readColor_writeDefaultColorsUpTo (e : Nat → Nat) :
    ∀ (n j : Nat), j < n →
      readColorFromEEPROM (writeDefaultColorsUpTo e n) j = defaultColors j
  | n + 1, j, hj => by
    unfold writeDefaultColorsUpTo
    by_cases hje : j = n
    · subst hje
      obtain ⟨h1, h2, h3, h4⟩ := defaultColors_bounds j
      exact readColor_writeColor _ j _ h1 h2 h3 h4
    · rw [readColor_writeColor_frame _ _ _ _ (by omega)]
      exact readColor_writeDefaultColorsUpTo e n j (by omega)

/-! ### Claim C7 theorem -/

/-- C7: at boot, when the stored version byte at EEPROM address 0
differs from EEPROM_VERSION, initializeEEPROM rewrites every one of the
TOTAL_COLORS color centroid records and the UV threshold from the
compiled-in defaults and then writes the expected version byte; when the
version byte matches, the EEPROM is returned untouched (no write
occurs). -/
theorem initializeEEPROM_version_protocol (e : Nat → Nat) :
    (e EEPROM_VERSION_ADDR = EEPROM_VERSION → initializeEEPROM e = e) ∧
    (¬ e EEPROM_VERSION_ADDR = EEPROM_VERSION →
      (initializeEEPROM e) EEPROM_VERSION_ADDR = EEPROM_VERSION ∧
      (∀ i : Fin TOTAL_COLORS,
        readColorFromEEPROM (initializeEEPROM e) (i : Nat) = defaultColors (i : Nat)) ∧
      eepromGet16 (initializeEEPROM e) UV_THRESHOLD_ADDR = defaultUVThreshold) := by
  constructor
  · intro h
    unfold initializeEEPROM
    rw [if_neg (not_not_intro h)]
  · intro h
    unfold initializeEEPROM
    rw [if_pos h]
    refine ⟨?_, ?_, ?_⟩
    · unfold eepromWrite
      rw [Function.update_same]
      decide
    · intro i
      have hi : (i : Nat) < TOTAL_COLORS := i.isLt
      unfold readColorFromEEPROM eepromGet16
      unfold eepromWrite
      rw [Function.update_noteq (by unfold EEPROM_VERSION_ADDR; omega),
        Function.update_noteq (by unfold EEPROM_VERSION_ADDR; omega),
        Function.update_noteq (by unfold EEPROM_VERSION_ADDR; omega),
        Function.update_noteq (by unfold EEPROM_VERSION_ADDR; omega),
        Function.update_noteq (by unfold EEPROM_VERSION_ADDR; omega),
        Function.update_noteq (by unfold EEPROM_VERSION_ADDR; omega),
        Function.update_noteq (by unfold EEPROM_VERSION_ADDR; omega),
        Function.update_noteq (by unfold EEPROM_VERSION_ADDR; omega)]
      have hfr : ∀ a, a < UV_THRESHOLD_ADDR →
          eepromPut16 (writeDefaultColorsUpTo e TOTAL_COLORS)
            UV_THRESHOLD_ADDR defaultUVThreshold a =
          writeDefaultColorsUpTo e TOTAL_COLORS a := by
        intro a ha
        exact eepromPut16_frame _ _ _ _ (by omega) (by omega)
      rw [hfr _ (by unfold UV_THRESHOLD_ADDR; omega),
        hfr _ (by unfold UV_THRESHOLD_ADDR; omega),
        hfr _ (by unfold UV_THRESHOLD_ADDR; omega),
        hfr _ (by unfold UV_THRESHOLD_ADDR; omega),
        hfr _ (by unfold UV_THRESHOLD_ADDR; omega),
        hfr _ (by unfold UV_THRESHOLD_ADDR; omega),
        hfr _ (by unfold UV_THRESHOLD_ADDR; omega),
        hfr _ (by unfold UV_THRESHOLD_ADDR; omega)]
      have := readColor_writeDefaultColorsUpTo e TOTAL_COLORS (i : Nat) hi
      unfold readColorFromEEPROM eepromGet16 at this
      exact this
    · unfold eepromGet16 eepromWrite
      rw [Function.update_noteq (by unfold EEPROM_VERSION_ADDR UV_THRESHOLD_ADDR; omega),
        Function.update_noteq (by unfold EEPROM_VERSION_ADDR UV_THRESHOLD_ADDR; omega)]
      have := eepromGet16_put16_same (writeDefaultColorsUpTo e TOTAL_COLORS)
        UV_THRESHOLD_ADDR defaultUVThreshold (by unfold defaultUVThreshold; omega)
      unfold eepromGet16 at this
      exact this

/-- C7 witness: the protocol theorem on a blank (all-zero) EEPROM and on
an already-initialised one. -/
theorem initializeEEPROM_version_protocol_witness :
    (initializeEEPROM (fun _ => 0)) EEPROM_VERSION_ADDR = EEPROM_VERSION ∧
    readColorFromEEPROM (initializeEEPROM (fun _ => 0)) 0 = defaultColors 0 ∧
    eepromGet16 (initializeEEPROM (fun _ => 0)) UV_THRESHOLD_ADDR = defaultUVThreshold ∧
    initializeEEPROM (Function.update (fun _ => 0) 0 1) =
      Function.update (fun _ => 0) 0 1 := by
  have h := (initializeEEPROM_version_protocol (fun _ => 0)).2 (by decide)
  refine ⟨h.1, ?_, h.2.2, ?_⟩
  · have := h.2.1 ⟨0, by decide⟩
    simpa using this
  · exact (initializeEEPROM_version_protocol (Function.update (fun _ => 0) 0 1)).1
      (by simp [EEPROM_VERSION_ADDR, EEPROM_VERSION])

/-! ### Claim C9 (stop-before-reverse ordering)

The yaw-direction reversals of the firmware all happen inside the
fine-adjust procedure: handleRotationAdjustments (lines 855-872) is the
only place a rotate command in the direction opposite to the current one
is issued, and it is bracketed by rotateStop; fineAdjustCheck's entry
command (lines 767-776) rotates in the current direction, and its
hand-off (rotateStop at line 785, followed in the still-initialising
branch by the high-speed CCW seek of handleInitializingStateInAdjust,
line 804) again stops first.  The functions are modelled as returning
both the new state and the list of motion commands issued, in order. -/

inductive MotionCmd where
  | rotateCmd (speed : Nat) (direction : Bool)
  | stopCmd
  deriving DecidableEq, Repr

/-- A command list is issued stop-before-reverse-safely from state s:
whenever a rotate command is issued, the opposite direction flag is
clear at that moment. -/
def cmdsOk : DealerState → List MotionCmd → Prop
  | _, [] => True
  | s, .rotateCmd sp d :: rest =>
      (d = CW → s.rotatingCCW = false) ∧ (d = CCW → s.rotatingCW = false) ∧
      cmdsOk (rotate sp d s) rest
  | s, .stopCmd :: rest => cmdsOk (rotateStop s) rest

/-- handleRotationAdjustments (lines 855-872), instrumented with the
motion commands it issues: when rotating CW (resp. CCW) and no
correction is under way, stop, mark the correction direction and creep
the opposite way at low speed. -/
def handleRotationAdjustments (s : DealerState) : DealerState × List MotionCmd :=
  if s.rotatingCW = true ∧ s.correctingCW = false ∧ s.correctingCCW = false then
    let s1 := rotateStop s
    let s2 := { s1 with correctingCW := false, correctingCCW := true }
    (rotate lowSpeed CCW s2, [.stopCmd, .rotateCmd lowSpeed CCW])
  else if s.rotatingCCW = true ∧ s.correctingCW = false ∧ s.correctingCCW = false then
    let s1 := rotateStop s
    let s2 := { s1 with correctingCCW := false, correctingCW := true }
    (rotate lowSpeed CW s2, [.stopCmd, .rotateCmd lowSpeed CW])
  else (s, [])

/-- Entry block of fineAdjustCheck (lines 767-776): on first entry, tag
the adjust start, and creep at low speed in the direction already being
travelled (CCW if rotatingCCW, else CW). -/
def fineAdjustCheckEntry (now : Nat) (s : DealerState) : DealerState × List MotionCmd :=
  if s.fineAdjustCheckStarted = false then
    let s1 := { s with adjustStart := now, fineAdjustCheckStarted := true }
    if s1.rotatingCCW then (rotate lowSpeed CCW s1, [.rotateCmd lowSpeed CCW])
    else (rotate lowSpeed CW s1, [.rotateCmd lowSpeed CW])
  else (s, [])

/-- Motion commands of fineAdjustCheck's hand-off while initialising on
a non-red tag: the unconditional rotateStop (line 785) followed by the
high-speed CCW seek of handleInitializingStateInAdjust (line 804). -/
def fineAdjustSeekTrace : List MotionCmd :=
  [.stopCmd, .rotateCmd highSpeed CCW]

/-- Rotation-flag consistency maintained by rotate/rotateStop: never
both direction flags, and no direction flag while stopped. -/
def motionConsistent (s : DealerState) : Prop :=
  ¬ (s.rotatingCW = true ∧ s.rotatingCCW = true) ∧
  (s.stopped = true → s.rotatingCW = false ∧ s.rotatingCCW = false)

instance (s : DealerState) : Decidable (motionConsistent s) := by
  unfold motionConsistent; infer_instance

/-- C9: from any consistent motion state, every command sequence issued
by the direction-reversing procedure — handleRotationAdjustments, the
only site that commands a rotation opposite to the current one — and by
fineAdjustCheck's entry and hand-off is stop-before-reverse safe: no
rotate(_, CW) is issued while flags1.rotatingCCW is set and no
rotate(_, CCW) while flags1.rotatingCW is set, without an intervening
rotateStop.  Moreover rotate and rotateStop preserve the consistency of
the direction flags. -/
theorem stop_before_reverse (now : Nat) (s : DealerState)
    (h : motionConsistent s) :
    cmdsOk s (handleRotationAdjustments s).2 ∧
    cmdsOk s (fineAdjustCheckEntry now s).2 ∧
    cmdsOk s fineAdjustSeekTrace ∧
    (∀ sp d, motionConsistent (rotate sp d s)) ∧
    motionConsistent (rotateStop s) := by
  obtain ⟨hboth, hstop⟩ := h
  have hstopFlags : ∀ s1 : DealerState, (rotateStop s1).rotatingCW = false ∨
      (s1.stopped = true ∧ (rotateStop s1).rotatingCW = s1.rotatingCW) := by
    intro s1
    unfold rotateStop
    by_cases hs : s1.stopped
    · rw [if_neg (by simp [hs])]
      exact Or.inr ⟨hs, rfl⟩
    · rw [if_pos (by simp [hs])]
      exact Or.inl rfl
  refine ⟨?_, ?_, ?_, ?_, ?_⟩
  · unfold handleRotationAdjustments
    by_cases h1 : s.rotatingCW = true ∧ s.correctingCW = false ∧ s.correctingCCW = false
    · rw [if_pos h1]
      have hns : s.stopped = false := by
        cases hs : s.stopped
        · rfl
        · exact absurd (hstop hs).1 (by simp [h1.1])
      show cmdsOk s [.stopCmd, .rotateCmd lowSpeed CCW]
      unfold cmdsOk rotateStop
      rw [if_pos (by simp [hns])]
      exact ⟨by simp [CW, CCW], by simp, trivial⟩
    · rw [if_neg h1]
      by_cases h2 : s.rotatingCCW = true ∧ s.correctingCW = false ∧ s.correctingCCW = false
      · rw [if_pos h2]
        have hns : s.stopped = false := by
          cases hs : s.stopped
          · rfl
          · exact absurd (hstop hs).2 (by simp [h2.1])
        show cmdsOk s [.stopCmd, .rotateCmd lowSpeed CW]
        unfold cmdsOk rotateStop
        rw [if_pos (by simp [hns])]
        exact ⟨by simp [CW, CCW], by simp [CW, CCW], trivial⟩
      · rw [if_neg h2]
        exact trivial
  · unfold fineAdjustCheckEntry
    by_cases hfs : s.fineAdjustCheckStarted = false
    · rw [if_pos hfs]
      by_cases hccw : s.rotatingCCW
      · rw [if_pos (by simpa using hccw)]
        have hcw : s.rotatingCW = false := by
          cases hc : s.rotatingCW
          · rfl
          · exact absurd ⟨hc, hccw⟩ hboth
        exact ⟨by simp [CW, CCW], by simp [CW, CCW, hcw], trivial⟩
      · rw [if_neg (by simpa using hccw)]
        exact ⟨by simpa using hccw, by simp [CW, CCW], trivial⟩
    · rw [if_neg hfs]
      exact trivial
  · unfold fineAdjustSeekTrace cmdsOk
    rcases hstopFlags s with hcw | ⟨hs, heq⟩
    · exact ⟨by simp [CW, CCW], by simp [CW, CCW, hcw], trivial⟩
    · have := hstop hs
      exact ⟨by simp [CW, CCW], by simp [CW, CCW, heq, this.1], trivial⟩
  · intro sp d
    unfold rotate motionConsistent
    by_cases hd : d = CW
    · rw [if_pos hd]
      simp
    · rw [if_neg hd]
      simp
  · unfold rotateStop motionConsistent
    by_cases hs : s.stopped
    · rw [if_neg (by simp [hs])]
      exact ⟨hboth, hstop⟩
    · rw [if_pos (by simp [hs])]
      simp

/-- C9 witness: the ordering theorem from a concrete state rotating CW
at high speed. -/
theorem stop_before_reverse_witness :
    cmdsOk { bootState with rotatingCW := true, stopped := false }
      (handleRotationAdjustments
        { bootState with rotatingCW := true, stopped := false }).2 ∧
    cmdsOk { bootState with rotatingCW := true, stopped := false }
      fineAdjustSeekTrace :=
  ⟨(stop_before_reverse 0 _ (by decide)).1,
    (stop_before_reverse 0 _ (by decide)).2.2.1⟩
